import Mathlib

/-!
Verification of the AR asset pipeline (GLB optimizer, GLB annotation
extractor, IFC property indexer, and GLB-to-USDZ converter) against its
natural-language specification.

The TypeScript sources are shallowly embedded: byte buffers are
`List Nat` (each entry one byte), JavaScript numbers are modelled by
`JsNum` (a rational together with NaN and the signed infinities), and
the relevant functions are translated definition by definition.
-/

namespace AR

/-! ## JavaScript number model

JavaScript numbers as far as the embedded code observes them: finite
values (rationals; every value the pipeline reads — integers and
binary32 floats — is exactly representable), `NaN`, `Infinity` and
`-Infinity`.  `jsLt` is the JS `<` operator on this fragment (any
comparison involving NaN is false). -/

inductive JsNum where
  | nan : JsNum
  | inf : JsNum
  | ninf : JsNum
  | num : ℚ → JsNum
deriving DecidableEq, Repr

def jsLt : JsNum → JsNum → Bool
  | .num a, .num b => decide (a < b)
  | .num _, .inf => true
  | .ninf, .num _ => true
  | .ninf, .inf => true
  | _, _ => false

/-- JS `isNaN` on our number model. -/
def jsIsNaN : JsNum → Bool
  | .nan => true
  | _ => false

theorem jsLt_irrefl (a : JsNum) : jsLt a a = false := by
  cases a
  case num q => simp [jsLt]
  all_goals rfl

theorem jsLt_trans {a b c : JsNum} (h₁ : jsLt a b = true) (h₂ : jsLt b c = true) :
    jsLt a c = true := by
  cases a <;> cases b <;> cases c <;> simp_all [jsLt] <;> exact lt_trans h₁ h₂

/-! ## Little-endian byte encoding helpers

`u16le`/`u32le` are the encodings performed by `DataView.setUint16` /
`setUint32` with `littleEndian = true` (values are truncated modulo
2^16 / 2^32), and `readUInt32LE` is Node's `Buffer.readUInt32LE`
(total here, reading 0 for out-of-range bytes; every use in the
embedded code is range-guarded as in the source). -/

def u16le (n : Nat) : List Nat := [n % 256, n / 256 % 256]

def u32le (n : Nat) : List Nat :=
  [n % 256, n / 256 % 256, n / 65536 % 256, n / 16777216 % 256]

def readUInt32LE (buf : List Nat) (off : Nat) : Nat :=
  buf.getD off 0 + 256 * buf.getD (off + 1) 0 + 65536 * buf.getD (off + 2) 0 +
    16777216 * buf.getD (off + 3) 0

theorem list_get_congr {α : Type} {l₁ l₂ : List α} (he : l₁ = l₂) {i : Nat}
    (h1 : i < l₁.length) (h2 : i < l₂.length) : l₁.get ⟨i, h1⟩ = l₂.get ⟨i, h2⟩ := by
  subst he
  rfl

theorem u16le_length (n : Nat) : (u16le n).length = 2 := rfl

theorem u32le_length (n : Nat) : (u32le n).length = 4 := rfl

/-! ## UTF-8 encoding (TextEncoder.encode) -/

def utf8Char (c : Char) : List Nat :=
  let n := c.toNat
  if n < 0x80 then [n]
  else if n < 0x800 then [0xC0 + n / 64, 0x80 + n % 64]
  else if n < 0x10000 then [0xE0 + n / 4096, 0x80 + n / 64 % 64, 0x80 + n % 64]
  else [0xF0 + n / 262144, 0x80 + n / 4096 % 64, 0x80 + n / 64 % 64, 0x80 + n % 64]

def utf8Encode (s : String) : List Nat := s.data.flatMap utf8Char

/-! ## CRC-32 (glb-to-usdz.ts, function crc32)

Source loop: `crc = (crc >>> 1) ^ (crc & 1 ? 0xEDB88320 : 0)`, eight
times per input byte, with `crc ^= data[i]` before and a final
complement.  Arithmetic is on 32-bit values, modelled on `Nat` (all
intermediate values stay below 2^32). -/

def crc32Shift (crc : Nat) : Nat :=
  Nat.xor (crc / 2) (if crc % 2 = 1 then 0xEDB88320 else 0)

def crc32Byte (crc b : Nat) : Nat := crc32Shift^[8] (Nat.xor crc b)

def crc32 (data : List Nat) : Nat :=
  Nat.xor (data.foldl crc32Byte 0xFFFFFFFF) 0xFFFFFFFF

/-! ## USDZ archive writer (glb-to-usdz.ts, function createUsdzZip)

The source builds the archive from a filename and the UTF-8 bytes of
the USDA document: a 30-byte local file header, the filename padded
with zero bytes so the payload starts on a 64-byte boundary, the
payload, one 46-byte central directory record, the unpadded filename,
and a 22-byte end-of-central-directory record. -/

def usdzFileName : String := "model.usda"

def usdzFileNameBytes : List Nat := utf8Encode usdzFileName

def usdzLocalHeaderSize : Nat := 30 + usdzFileNameBytes.length

def usdzPaddingNeeded : Nat := (64 - usdzLocalHeaderSize % 64) % 64

def usdzPaddedFileNameBytes : List Nat :=
  usdzFileNameBytes ++ List.replicate usdzPaddingNeeded 0

/-- Byte offset at which the entry's file data begins. -/
def usdzDataOffset : Nat := 30 + usdzFileNameBytes.length + usdzPaddingNeeded

def usdzLocalHeader (fileData : List Nat) : List Nat :=
  u32le 0x04034b50 ++              -- signature
  u16le 20 ++                      -- version needed
  u16le 0 ++                       -- flags
  u16le 0 ++                       -- compression (store)
  u16le 0 ++                       -- mod time
  u16le 0 ++                       -- mod date
  u32le (crc32 fileData) ++        -- crc32
  u32le fileData.length ++         -- compressed size
  u32le fileData.length ++         -- uncompressed size
  u16le (usdzFileNameBytes.length + usdzPaddingNeeded) ++ -- name length (padded)
  u16le 0                          -- extra length

def usdzCentralDir (fileData : List Nat) : List Nat :=
  u32le 0x02014b50 ++              -- signature
  u16le 20 ++                      -- version made by
  u16le 20 ++                      -- version needed
  u16le 0 ++                       -- flags
  u16le 0 ++                       -- compression
  u16le 0 ++                       -- mod time
  u16le 0 ++                       -- mod date
  u32le (crc32 fileData) ++
  u32le fileData.length ++
  u32le fileData.length ++
  u16le usdzFileNameBytes.length ++ -- name length
  u16le 0 ++                       -- extra length
  u16le 0 ++                       -- comment length
  u16le 0 ++                       -- disk number
  u16le 0 ++                       -- internal attrs
  u32le 0 ++                       -- external attrs
  u32le 0                          -- local header offset

def usdzCdSize : Nat := 46 + usdzFileNameBytes.length

def usdzEocd (fileData : List Nat) : List Nat :=
  u32le 0x06054b50 ++
  u16le 0 ++                       -- disk number
  u16le 0 ++                       -- disk with CD
  u16le 1 ++                       -- entries on disk
  u16le 1 ++                       -- total entries
  u32le usdzCdSize ++              -- CD size
  u32le (usdzDataOffset + fileData.length) -- CD offset
  ++ u16le 0                       -- comment length

/-- The assembled archive for a given payload (`createUsdzZip` after
`TextEncoder.encode`). -/
def createUsdzZipBytes (fileData : List Nat) : List Nat :=
  usdzLocalHeader fileData ++ usdzPaddedFileNameBytes ++ fileData ++
    usdzCentralDir fileData ++ usdzFileNameBytes ++ usdzEocd fileData

/-- Function `createUsdzZip` as in the source: encode the USDA text, wrap it. -/
def createUsdzZip (usda : String) : List Nat :=
  createUsdzZipBytes (utf8Encode usda)

theorem usdzFileNameBytes_eq :
    usdzFileNameBytes = [109, 111, 100, 101, 108, 46, 117, 115, 100, 97] := by decide

theorem usdzPaddingNeeded_eq : usdzPaddingNeeded = 24 := by decide

theorem usdzDataOffset_eq : usdzDataOffset = 64 := by decide

theorem usdzCdSize_eq : usdzCdSize = 56 := by decide

/-- The archive past the local header, padded filename and payload. -/
theorem usdz_drop_data (d : List Nat) :
    (createUsdzZipBytes d).drop (usdzDataOffset + d.length) =
      usdzCentralDir d ++ usdzFileNameBytes ++ usdzEocd d := by
  have h : (createUsdzZipBytes d).drop usdzDataOffset =
      d ++ (usdzCentralDir d ++ usdzFileNameBytes ++ usdzEocd d) := by
    simp [createUsdzZipBytes, usdzLocalHeader, usdzPaddedFileNameBytes,
      usdzFileNameBytes_eq, usdzPaddingNeeded_eq, usdzDataOffset_eq,
      u32le, u16le, List.replicate]
  calc (createUsdzZipBytes d).drop (usdzDataOffset + d.length)
      = ((createUsdzZipBytes d).drop usdzDataOffset).drop d.length := by
        rw [List.drop_drop]
    _ = usdzCentralDir d ++ usdzFileNameBytes ++ usdzEocd d := by
        rw [h, List.drop_left]

/-- C5: `createUsdzZip` produces an uncompressed (store-only) ZIP stream
with exactly one entry: the local file header carries compression
method 0 and the CRC-32 of the payload; the filename is padded so the
file data begins at a 64-byte-aligned offset, where the payload appears
verbatim; it is followed by exactly one central directory record
(store method, at the declared offset) and an end-of-central-directory
record declaring 1 entry and the computed directory size and offset,
after which the stream ends. -/
theorem createUsdzZip_layout (d : List Nat) :
    (createUsdzZipBytes d).take 4 = u32le 0x04034b50 ∧
    ((createUsdzZipBytes d).drop 8).take 2 = u16le 0 ∧
    ((createUsdzZipBytes d).drop 14).take 4 = u32le (crc32 d) ∧
    usdzDataOffset % 64 = 0 ∧
    ((createUsdzZipBytes d).drop usdzDataOffset).take d.length = d ∧
    ((createUsdzZipBytes d).drop (usdzDataOffset + d.length)).take 4 = u32le 0x02014b50 ∧
    ((createUsdzZipBytes d).drop (usdzDataOffset + d.length + 10)).take 2 = u16le 0 ∧
    ((createUsdzZipBytes d).drop (usdzDataOffset + d.length + 16)).take 4 = u32le (crc32 d) ∧
    ((createUsdzZipBytes d).drop (usdzDataOffset + d.length + usdzCdSize)).take 4 =
      u32le 0x06054b50 ∧
    ((createUsdzZipBytes d).drop (usdzDataOffset + d.length + usdzCdSize + 10)).take 2 =
      u16le 1 ∧
    ((createUsdzZipBytes d).drop (usdzDataOffset + d.length + usdzCdSize + 12)).take 4 =
      u32le usdzCdSize ∧
    ((createUsdzZipBytes d).drop (usdzDataOffset + d.length + usdzCdSize + 16)).take 4 =
      u32le (usdzDataOffset + d.length) ∧
    (createUsdzZipBytes d).length = usdzDataOffset + d.length + usdzCdSize + 22 := by
  have hdata : ∀ k : Nat, (createUsdzZipBytes d).drop (usdzDataOffset + d.length + k) =
      (usdzCentralDir d ++ usdzFileNameBytes ++ usdzEocd d).drop k := by
    intro k
    rw [← List.drop_drop, usdz_drop_data d]
  refine ⟨?_, ?_, ?_, ?_, ?_, ?_, ?_, ?_, ?_, ?_, ?_, ?_, ?_⟩
  · simp [createUsdzZipBytes, usdzLocalHeader, u32le, u16le]
  · simp [createUsdzZipBytes, usdzLocalHeader, u32le, u16le]
  · simp [createUsdzZipBytes, usdzLocalHeader, u32le, u16le]
  · rw [usdzDataOffset_eq]
  · have h : (createUsdzZipBytes d).drop usdzDataOffset =
        d ++ (usdzCentralDir d ++ usdzFileNameBytes ++ usdzEocd d) := by
      simp [createUsdzZipBytes, usdzLocalHeader, usdzPaddedFileNameBytes,
        usdzFileNameBytes_eq, usdzPaddingNeeded_eq, usdzDataOffset_eq,
        u32le, u16le, List.replicate]
    rw [h, List.take_left]
  · have h := hdata 0
    simp only [Nat.add_zero, List.drop_zero] at h
    rw [h]; simp [usdzCentralDir, u32le, u16le]
  · rw [hdata 10]; simp [usdzCentralDir, u32le, u16le]
  · rw [hdata 16]; simp [usdzCentralDir, u32le, u16le]
  · rw [hdata usdzCdSize]
    simp [usdzCentralDir, usdzEocd, usdzFileNameBytes_eq, usdzCdSize_eq, u32le, u16le]
  · rw [show usdzDataOffset + d.length + usdzCdSize + 10 =
        usdzDataOffset + d.length + (usdzCdSize + 10) from by omega, hdata (usdzCdSize + 10)]
    simp [usdzCentralDir, usdzEocd, usdzFileNameBytes_eq, usdzCdSize_eq, u32le, u16le]
  · rw [show usdzDataOffset + d.length + usdzCdSize + 12 =
        usdzDataOffset + d.length + (usdzCdSize + 12) from by omega, hdata (usdzCdSize + 12)]
    simp [usdzCentralDir, usdzEocd, usdzFileNameBytes_eq, usdzCdSize_eq, u32le, u16le]
  · rw [show usdzDataOffset + d.length + usdzCdSize + 16 =
        usdzDataOffset + d.length + (usdzCdSize + 16) from by omega, hdata (usdzCdSize + 16)]
    simp [usdzCentralDir, usdzEocd, usdzFileNameBytes_eq, usdzCdSize_eq, u32le, u16le]
  · simp [createUsdzZipBytes, usdzLocalHeader, usdzPaddedFileNameBytes,
      usdzCentralDir, usdzEocd, usdzFileNameBytes_eq, usdzPaddingNeeded_eq,
      usdzDataOffset_eq, usdzCdSize_eq, u32le, u16le]
    omega

/-! ## USDZ converter structure (glb-to-usdz.ts, convertGlbToUsdz)

Structural model of the USDA document emitted by `convertGlbToUsdz`:
which material definitions appear in the `Materials` scope (by name,
in push order) and, for every emitted mesh `Xform`, its name and the
name referenced by its `material:binding` relationship.  Colors and
vertex data only feed the textual bodies of the definitions and are
not part of this structural model. -/

/-- JS `a || b` on strings (empty string is falsy). -/
def jsOr (a b : String) : String := if a = "" then b else a

def usdIdentChar (c : Char) : Bool :=
  (97 ≤ c.toNat && c.toNat ≤ 122) || (65 ≤ c.toNat && c.toNat ≤ 90) ||
    (48 ≤ c.toNat && c.toNat ≤ 57) || c.toNat = 95

def digitChar (c : Char) : Bool := 48 ≤ c.toNat && c.toNat ≤ 57

/-- glb-to-usdz.ts `safeName`: replace characters outside
letters/digits/underscore with an underscore, map the empty result to
an `_unnamed` placeholder, and prefix a leading digit with an
underscore. -/
def safeName (name : String) : String :=
  let safe := String.mk (name.data.map fun c => if usdIdentChar c then c else '_')
  if safe.length = 0 then "_unnamed"
  else if (match safe.data with | [] => false | c :: _ => digitChar c) then "_" ++ safe
  else safe

structure UsdMaterial where
  /-- gltf-transform `getName()` (empty string when unnamed). -/
  name : String
deriving DecidableEq, Repr

structure UsdPrimitive where
  /-- Topology mode; `Primitive.Mode.TRIANGLES` is 4. -/
  mode : Nat
  /-- Count of the POSITION accessor, `none` when the attribute is absent. -/
  position : Option Nat
  /-- The referenced material object, `none` when the primitive has none. -/
  material : Option UsdMaterial
deriving DecidableEq, Repr

structure UsdMesh where
  name : String
  primitives : List UsdPrimitive
deriving DecidableEq, Repr

structure UsdNode where
  name : String
  mesh : Option UsdMesh
deriving DecidableEq, Repr

structure UsdDocument where
  /-- Source accessor `root.listMaterials()`. -/
  materials : List UsdMaterial
  /-- Source accessor `root.listNodes()`. -/
  nodes : List UsdNode
deriving DecidableEq, Repr

/-- Assoc-list lookup (JS `Map.get`). -/
def lookupAssoc (m : List (String × String)) (k : String) : Option String :=
  match m with
  | [] => none
  | (k₀, v₀) :: rest => if k₀ = k then some v₀ else lookupAssoc rest k

/-- JS `Map.set`: overwrite in place when present, append when new. -/
def jsMapSet (m : List (String × String)) (k v : String) : List (String × String) :=
  match m with
  | [] => [(k, v)]
  | (k₀, v₀) :: rest => if k₀ = k then (k₀, v) :: rest else (k₀, v₀) :: jsMapSet rest k v

/-- The materials-collection loop of `convertGlbToUsdz`: returns the
`materialNames` map (raw name to sanitized name) and the list of
emitted definition names, in push order. -/
def collectMaterials (mats : List UsdMaterial) : List (String × String) × List String :=
  mats.foldl
    (fun st mat =>
      let rawName := jsOr mat.name ("Material_" ++ toString st.1.length)
      let name := safeName rawName
      (jsMapSet st.1 rawName name, st.2 ++ [name]))
    ([], [])

/-- Definition names appearing in the `Materials` scope: one per listed
material, or the synthesized `DefaultMaterial` when there are none. -/
def usdaMaterialScope (doc : UsdDocument) : List String :=
  let defs := (collectMaterials doc.materials).2
  if defs = [] then ["DefaultMaterial"] else defs

/-- Material binding computed for one primitive (convertGlbToUsdz,
`materialBinding`): the registered sanitized name of the primitive's
material, falling back to `DefaultMaterial` when the primitive has no
material or the lookup yields nothing truthy. -/
def primBinding (matNames : List (String × String)) (m : Option UsdMaterial) : String :=
  match m with
  | none => "DefaultMaterial"
  | some mat =>
    let rawName := jsOr mat.name ""
    match lookupAssoc matNames rawName with
    | some n => if n = "" then "DefaultMaterial" else n
    | none => "DefaultMaterial"

/-- Guard of the mesh-emission loop: only TRIANGLES primitives with a
non-empty POSITION accessor are emitted. -/
def primEmitted (p : UsdPrimitive) : Bool :=
  p.mode == 4 && (match p.position with | some c => c > 0 | none => false)

/-- The `while (usedMeshNames.has(name))` suffix search.  The fuel is
an upper bound on the number of iterations actually needed (the used
set is finite and the candidate names are pairwise distinct). -/
def freshLoop (used : List String) (base : String) : Nat → Nat → String
  | counter, 0 => base ++ "_" ++ toString counter
  | counter, fuel + 1 =>
    let name := base ++ "_" ++ toString counter
    if name ∈ used then freshLoop used base (counter + 1) fuel else name

def getUniqueMeshName (used : List String) (node : UsdNode) (mesh : UsdMesh) : String :=
  let base := safeName (jsOr node.name (jsOr mesh.name "Mesh"))
  if base ∈ used then freshLoop used base 1 (used.length + 1) else base

/-- One step of the mesh-emission loop: state is the used-name set and
the accumulated (Xform name, material binding) pairs. -/
def emitPrimStep (matNames : List (String × String)) (node : UsdNode) (mesh : UsdMesh)
    (st : List String × List (String × String)) (p : UsdPrimitive) :
    List String × List (String × String) :=
  if primEmitted p then
    let name := getUniqueMeshName st.1 node mesh
    (st.1 ++ [name], st.2 ++ [(name, primBinding matNames p.material)])
  else st

/-- One node of the emission loop (`const mesh = node.getMesh(); if
(!mesh) continue;` then the primitive loop). -/
def emitNodeStep (matNames : List (String × String))
    (st : List String × List (String × String)) (node : UsdNode) :
    List String × List (String × String) :=
  match node.mesh with
  | none => st
  | some mesh => mesh.primitives.foldl (emitPrimStep matNames node mesh) st

/-- The node/primitive emission loop of `convertGlbToUsdz`. -/
def usdaMeshScope (doc : UsdDocument) : List (String × String) :=
  (doc.nodes.foldl (emitNodeStep (collectMaterials doc.materials).1) ([], [])).2

/-- The primitives that pass the emission guard, with their nodes, in
emission order. -/
def emittedPrims (doc : UsdDocument) : List UsdPrimitive :=
  doc.nodes.flatMap fun node =>
    match node.mesh with
    | none => []
    | some mesh => mesh.primitives.filter primEmitted

theorem jsOr_ne_empty (a : String) {b : String} (hb : b ≠ "") : jsOr a b ≠ "" := by
  unfold jsOr
  split
  · exact hb
  · assumption

theorem matFallbackName_ne_empty (s : String) : "Material_" ++ s ≠ "" := by
  intro hc
  have h := congrArg String.length hc
  simp [String.length_append] at h
  exact absurd h.1 (by decide)

theorem jsMapSet_mem {m : List (String × String)} {k v : String} :
    ∀ kv ∈ jsMapSet m k v, kv.1 = k ∨ kv ∈ m := by
  induction m with
  | nil =>
    intro kv h
    simp only [jsMapSet, List.mem_singleton] at h
    subst h; left; rfl
  | cons hd tl ih =>
    intro kv h
    simp only [jsMapSet] at h
    split at h
    · rename_i heq
      rcases List.mem_cons.mp h with h1 | h1
      · subst h1; left; exact heq
      · right; exact List.mem_cons_of_mem _ h1
    · rcases List.mem_cons.mp h with h1 | h1
      · subst h1; right; exact List.mem_cons_self _ _
      · rcases ih kv h1 with h2 | h2
        · left; exact h2
        · right; exact List.mem_cons_of_mem _ h2

theorem collectMaterials_keys_ne_empty (mats : List UsdMaterial) :
    ∀ kv ∈ (collectMaterials mats).1, kv.1 ≠ "" := by
  suffices h : ∀ (st : List (String × String) × List String),
      (∀ kv ∈ st.1, kv.1 ≠ "") →
      ∀ kv ∈ (mats.foldl (fun st mat =>
        let rawName := jsOr mat.name ("Material_" ++ toString st.1.length)
        let name := safeName rawName
        (jsMapSet st.1 rawName name, st.2 ++ [name])) st).1, kv.1 ≠ "" by
    exact h ([], []) (by intro kv h; simp at h)
  induction mats with
  | nil => intro st hst kv h; exact hst kv h
  | cons m ms ih =>
    intro st hst kv h
    refine ih _ ?_ kv h
    intro kv' h'
    rcases jsMapSet_mem kv' h' with h'' | h''
    · rw [h'']
      exact jsOr_ne_empty _ (matFallbackName_ne_empty _)
    · exact hst kv' h''

theorem lookupAssoc_eq_none {m : List (String × String)} {k : String}
    (h : ∀ kv ∈ m, kv.1 ≠ k) : lookupAssoc m k = none := by
  induction m with
  | nil => rfl
  | cons hd tl ih =>
    unfold lookupAssoc
    rw [if_neg (h hd (List.mem_cons_self _ _))]
    exact ih fun kv hkv => h kv (List.mem_cons_of_mem _ hkv)

theorem collectMaterials_defs_length (mats : List UsdMaterial) :
    (collectMaterials mats).2.length = mats.length := by
  suffices h : ∀ (st : List (String × String) × List String),
      ((mats.foldl (fun st mat =>
        let rawName := jsOr mat.name ("Material_" ++ toString st.1.length)
        let name := safeName rawName
        (jsMapSet st.1 rawName name, st.2 ++ [name])) st).2).length =
        st.2.length + mats.length by
    simpa using h ([], [])
  induction mats with
  | nil => intro st; simp
  | cons m ms ih =>
    intro st
    simp only [List.foldl_cons, ih, List.length_append, List.length_cons,
      List.length_nil]
    omega

theorem emitPrims_foldl_snd (matNames : List (String × String)) (node : UsdNode)
    (mesh : UsdMesh) (ps : List UsdPrimitive) :
    ∀ st : List String × List (String × String),
    ((ps.foldl (emitPrimStep matNames node mesh) st).2).map Prod.snd =
      st.2.map Prod.snd ++
        (ps.filter primEmitted).map fun p => primBinding matNames p.material := by
  induction ps with
  | nil => intro st; simp
  | cons p ps ih =>
    intro st
    by_cases h : primEmitted p
    · simp only [List.foldl_cons, List.filter_cons, h, if_pos]
      rw [ih]
      simp [emitPrimStep, h]
    · simp only [List.foldl_cons, List.filter_cons, h]
      rw [ih]
      simp [emitPrimStep, h]

theorem usdaMeshScope_bindings (doc : UsdDocument) :
    (usdaMeshScope doc).map Prod.snd =
      (emittedPrims doc).map fun p =>
        primBinding (collectMaterials doc.materials).1 p.material := by
  unfold usdaMeshScope emittedPrims
  generalize (collectMaterials doc.materials).1 = matNames
  suffices h : ∀ (nodes : List UsdNode) (st : List String × List (String × String)),
      ((nodes.foldl (emitNodeStep matNames) st).2).map Prod.snd =
        st.2.map Prod.snd ++
          (nodes.flatMap fun node =>
            match node.mesh with
            | none => []
            | some mesh => mesh.primitives.filter primEmitted).map
            (fun p => primBinding matNames p.material) by
    simpa using h doc.nodes ([], [])
  intro nodes
  induction nodes with
  | nil => intro st; simp
  | cons n ns ih =>
    intro st
    simp only [List.foldl_cons, List.flatMap_cons, List.map_append, ih]
    cases hm : n.mesh with
    | none => simp [emitNodeStep, hm]
    | some mesh =>
      simp [emitNodeStep, hm, emitPrims_foldl_snd]

/-- A document with one material literally named `DefaultMaterial`. -/
def usdDocNamedDefault : UsdDocument :=
  { materials := [{ name := "DefaultMaterial" }], nodes := [] }

/-- C10, counterexample: a definition named `DefaultMaterial` appears
in the Materials scope for a document whose material list is nonempty
(a source material is itself named `DefaultMaterial`), so the claimed
iff fails in the only-if direction. -/
theorem usdaMaterialScope_named_default_counterexample :
    usdaMaterialScope usdDocNamedDefault = ["DefaultMaterial"] ∧
      usdDocNamedDefault.materials ≠ [] := by
  constructor
  · rfl
  · simp [usdDocNamedDefault]

/-- C10, amended: the synthesized fallback material definition is
emitted iff the document lists no materials (a listed material may
still be named `DefaultMaterial` itself); every emitted primitive
whose material is absent, or whose material name is empty or not
registered in the collected name map, is bound to `DefaultMaterial`;
and when the document has materials, none of whose emitted definition
names is `DefaultMaterial`, such a binding references a definition
name not present in the Materials scope. -/
theorem usdaMaterialScope_default_binding (doc : UsdDocument) :
    (doc.materials = [] → usdaMaterialScope doc = ["DefaultMaterial"]) ∧
    (doc.materials ≠ [] →
      usdaMaterialScope doc = (collectMaterials doc.materials).2 ∧
      (usdaMaterialScope doc).length = doc.materials.length) ∧
    (∀ p ∈ emittedPrims doc,
      (p.material = none ∨ ∃ mat, p.material = some mat ∧
        (mat.name = "" ∨ lookupAssoc (collectMaterials doc.materials).1 mat.name = none)) →
      primBinding (collectMaterials doc.materials).1 p.material = "DefaultMaterial") ∧
    ((usdaMeshScope doc).map Prod.snd =
      (emittedPrims doc).map fun p =>
        primBinding (collectMaterials doc.materials).1 p.material) ∧
    (doc.materials ≠ [] → "DefaultMaterial" ∉ (collectMaterials doc.materials).2 →
      ∀ p ∈ emittedPrims doc,
        (p.material = none ∨ ∃ mat, p.material = some mat ∧
          (mat.name = "" ∨ lookupAssoc (collectMaterials doc.materials).1 mat.name = none)) →
        "DefaultMaterial" ∉ usdaMaterialScope doc ∧
        "DefaultMaterial" ∈ (usdaMeshScope doc).map Prod.snd) := by
  have hbind : ∀ p ∈ emittedPrims doc,
      (p.material = none ∨ ∃ mat, p.material = some mat ∧
        (mat.name = "" ∨ lookupAssoc (collectMaterials doc.materials).1 mat.name = none)) →
      primBinding (collectMaterials doc.materials).1 p.material = "DefaultMaterial" := by
    intro p _ hcond
    rcases hcond with hnone | ⟨mat, hmat, hname⟩
    · rw [hnone]; rfl
    · rw [hmat]
      unfold primBinding
      have hraw : jsOr mat.name "" = mat.name := by
        unfold jsOr; split
        · rename_i h; rw [h]
        · rfl
      rcases hname with hempty | hmiss
      · have hnolookup : lookupAssoc (collectMaterials doc.materials).1 mat.name = none := by
          rw [hempty]
          exact lookupAssoc_eq_none fun kv hkv => collectMaterials_keys_ne_empty _ kv hkv
        simp only [hraw, hnolookup]
      · simp only [hraw, hmiss]
  have hscope : doc.materials ≠ [] →
      usdaMaterialScope doc = (collectMaterials doc.materials).2 ∧
      (usdaMaterialScope doc).length = doc.materials.length := by
    intro hne
    have hlen := collectMaterials_defs_length doc.materials
    have hnonnil : (collectMaterials doc.materials).2 ≠ [] := by
      intro hc
      rw [hc] at hlen
      exact hne (List.length_eq_zero.mp hlen.symm)
    constructor
    · unfold usdaMaterialScope
      rw [if_neg hnonnil]
    · unfold usdaMaterialScope
      rw [if_neg hnonnil]
      exact hlen
  refine ⟨?_, hscope, hbind, usdaMeshScope_bindings doc, ?_⟩
  · intro hnil
    unfold usdaMaterialScope
    rw [show (collectMaterials doc.materials).2 = [] from by rw [hnil]; rfl]
    rfl
  · intro hne hnotin p hp hcond
    refine ⟨?_, ?_⟩
    · rw [(hscope hne).1]
      exact hnotin
    · rw [usdaMeshScope_bindings doc]
      exact List.mem_map.mpr ⟨p, hp, hbind p hp hcond⟩

/-- A document exercising the dangling-binding case: one named
material and one primitive with no material at all. -/
def usdDocDangling : UsdDocument :=
  { materials := [{ name := "Steel" }],
    nodes := [{ name := "n",
                mesh := some { name := "m",
                               primitives := [{ mode := 4, position := some 3,
                                                material := none }] } }] }

/-- Witness for the amended C10 theorem at a concrete document. -/
theorem usdaMaterialScope_default_binding_witness :
    "DefaultMaterial" ∉ usdaMaterialScope usdDocDangling ∧
      "DefaultMaterial" ∈ (usdaMeshScope usdDocDangling).map Prod.snd := by
  refine (usdaMaterialScope_default_binding usdDocDangling).2.2.2.2 ?_ ?_
    { mode := 4, position := some 3, material := none } ?_ ?_
  · simp [usdDocDangling]
  · decide
  · decide
  · left; rfl

/-! ## Optimizer document model (lib/glb-optimize.ts)

In-memory model of the gltf-transform document as observed by the
repository's own transform passes.  Primitives reference materials by
index into the document's material list (mirroring shared mutable
references); accessors are carried by value inside the primitives that
use them.  Scene and buffer objects carry no data any embedded pass
reads, so they are not modelled. -/

def accessorElementSize (t : String) : Nat :=
  if t = "SCALAR" then 1
  else if t = "VEC2" then 2
  else if t = "VEC3" then 3
  else if t = "VEC4" then 4
  else if t = "MAT2" then 4
  else if t = "MAT3" then 9
  else if t = "MAT4" then 16
  else 1

structure OptAccessor where
  type : String
  array : List JsNum
  extras : List (String × String)
deriving DecidableEq, Repr

/-- gltf-transform `Accessor.getCount()`: array length over element size. -/
def OptAccessor.getCount (a : OptAccessor) : Nat :=
  a.array.length / accessorElementSize a.type

structure OptMaterial where
  name : String
  baseColorFactor : List JsNum
  metallicFactor : JsNum
  roughnessFactor : JsNum
  extras : List (String × String)
deriving DecidableEq, Repr

structure OptPrimitive where
  mode : Nat
  attributes : List (String × OptAccessor)
  indices : Option OptAccessor
  material : Option Nat
deriving DecidableEq, Repr

/-- First-match attribute lookup (`prim.getAttribute(semantic)`). -/
def attrGet (p : OptPrimitive) (k : String) : Option OptAccessor :=
  match p.attributes.find? (fun kv => kv.1 == k) with
  | some kv => some kv.2
  | none => none

structure OptMesh where
  primitives : List OptPrimitive
  extras : List (String × String)
deriving DecidableEq, Repr

structure OptNode where
  name : String
  skin : Option Nat
  camera : Option Nat
  extras : List (String × String)
deriving DecidableEq, Repr

structure OptDocument where
  materials : List OptMaterial
  meshes : List OptMesh
  nodes : List OptNode
  animations : List Unit
  skins : List Unit
  cameras : List Unit
  extras : List (String × String)
deriving DecidableEq, Repr

/-- Pass `removeAnimations`. -/
def removeAnimations (doc : OptDocument) : OptDocument :=
  { doc with animations := [] }

/-- Per-primitive part of `removeSkinning`: drop the JOINTS_0 and
WEIGHTS_0 attributes (the source removes each when present;
removing-when-present equals this filter). -/
def stripSkinAttrs (p : OptPrimitive) : OptPrimitive :=
  { p with attributes :=
      p.attributes.filter fun kv => !(kv.1 == "JOINTS_0" || kv.1 == "WEIGHTS_0") }

/-- Pass `removeSkinning`: dispose all skins, clear node skin
references, and strip the skinning attributes of every primitive. -/
def removeSkinning (doc : OptDocument) : OptDocument :=
  { doc with
    skins := [],
    nodes := doc.nodes.map fun n => { n with skin := none },
    meshes := doc.meshes.map fun m =>
      { m with primitives := m.primitives.map stripSkinAttrs } }

/-- Pass `removeCamerasAndLights`. -/
def removeCamerasAndLights (doc : OptDocument) : OptDocument :=
  { doc with
    cameras := [],
    nodes := doc.nodes.map fun n => { n with camera := none } }

/-- Pass `removeNonTrianglePrimitives`: primitives whose mode is not
`Primitive.Mode.TRIANGLES` (4) are disposed, never converted. -/
def removeNonTrianglePrimitives (doc : OptDocument) : OptDocument :=
  { doc with
    meshes := doc.meshes.map fun m =>
      { m with primitives := m.primitives.filter fun p => p.mode == 4 } }

/-- Pass `applyColorMap`: case-insensitive material-name matching
against the sidecar color map; matched materials get the mapped base
color, others are untouched. -/
def applyColorMap (colorMap : List (String × List JsNum)) (doc : OptDocument) : OptDocument :=
  let lowerMap := colorMap.map fun kv => (kv.1.toLower, kv.2)
  { doc with
    materials := doc.materials.map fun mat =>
      match lowerMap.find? (fun kv => kv.1 == mat.name.toLower) with
      | some kv =>
        if kv.2.length ≥ 4 then
          { mat with baseColorFactor :=
              [kv.2.getD 0 (.num 0), kv.2.getD 1 (.num 0),
               kv.2.getD 2 (.num 0), kv.2.getD 3 (.num 0)] }
        else mat
      | none => mat }

/-- Per-primitive part of `generateMissingUVs`: a primitive with
POSITION but no TEXCOORD_0 gets an all-zero VEC2 accessor with one UV
pair per POSITION element. -/
def addMissingUV (p : OptPrimitive) : OptPrimitive :=
  match attrGet p "TEXCOORD_0" with
  | some _ => p
  | none =>
    match attrGet p "POSITION" with
    | none => p
    | some position =>
      let count := position.getCount
      { p with attributes := p.attributes ++
          [("TEXCOORD_0",
            { type := "VEC2",
              array := List.replicate (count * 2) (.num 0),
              extras := [] })] }

/-- Pass `generateMissingUVs`. -/
def generateMissingUVs (doc : OptDocument) : OptDocument :=
  { doc with
    meshes := doc.meshes.map fun m =>
      { m with primitives := m.primitives.map addMissingUV } }

def clearAccessorExtras (a : OptAccessor) : OptAccessor := { a with extras := [] }

/-- Per-primitive part of `cleanExtras`: clear the extras of the
accessors reachable from the primitive. -/
def cleanPrimExtras (p : OptPrimitive) : OptPrimitive :=
  { p with
    attributes := p.attributes.map fun kv => (kv.1, clearAccessorExtras kv.2),
    indices := p.indices.map clearAccessorExtras }

/-- Pass `cleanExtras`: strips the extras of the root, materials,
nodes, meshes and every accessor (the source walks
`root.listAccessors()`; accessors live inside the primitives here). -/
def cleanExtras (doc : OptDocument) : OptDocument :=
  { doc with
    extras := [],
    materials := doc.materials.map fun mat => { mat with extras := [] },
    nodes := doc.nodes.map fun n => { n with extras := [] },
    meshes := doc.meshes.map fun m =>
      { m with
        extras := [],
        primitives := m.primitives.map cleanPrimExtras } }

/-- Pass `ensurePBR`: the base color factor is replaced by the neutral
default only when some component is NaN (the source's `!bc` disjunct
is vacuous: `getBaseColorFactor()` always returns an array); metallic
and roughness are reset when NaN or outside `[0, 1]`. -/
def ensurePBR (doc : OptDocument) : OptDocument :=
  { doc with
    materials := doc.materials.map fun mat =>
      let mat₁ :=
        if mat.baseColorFactor.any jsIsNaN then
          { mat with baseColorFactor := [.num 0.8, .num 0.8, .num 0.8, .num 1.0] }
        else mat
      let mat₂ :=
        if jsIsNaN mat₁.metallicFactor || jsLt mat₁.metallicFactor (.num 0) ||
            jsLt (.num 1) mat₁.metallicFactor then
          { mat₁ with metallicFactor := .num 0 }
        else mat₁
      if jsIsNaN mat₂.roughnessFactor || jsLt mat₂.roughnessFactor (.num 0) ||
          jsLt (.num 1) mat₂.roughnessFactor then
        { mat₂ with roughnessFactor := .num 1 }
      else mat₂ }

def defaultOptMaterial : OptMaterial :=
  { name := "Default",
    baseColorFactor := [.num 0.8, .num 0.8, .num 0.8, .num 1.0],
    metallicFactor := .num 0,
    roughnessFactor := .num 1,
    extras := [] }

/-- Per-primitive part of `ensureMaterials`: bind the default material
(by its index) to a primitive lacking one. -/
def assignDefaultMaterial (idx : Nat) (p : OptPrimitive) : OptPrimitive :=
  if p.material = none then { p with material := some idx } else p

/-- Pass `ensureMaterials`: a single default material is created on
demand and assigned to every primitive lacking one. -/
def ensureMaterials (doc : OptDocument) : OptDocument :=
  if doc.meshes.any (fun m => m.primitives.any fun p => p.material = none) then
    { doc with
      materials := doc.materials ++ [defaultOptMaterial],
      meshes := doc.meshes.map fun m =>
        { m with primitives :=
            m.primitives.map (assignDefaultMaterial doc.materials.length) } }
  else doc

/-- The conditional color-injection step of `optimizeGlbForAR`
(`...(colorMap && Object.keys(colorMap).length > 0 ? [applyColorMap(colorMap)] : [])`). -/
def colorMapPass (colorMap : Option (List (String × List JsNum)))
    (doc : OptDocument) : OptDocument :=
  match colorMap with
  | some cm => if cm.length > 0 then applyColorMap cm doc else doc
  | none => doc

/-- The repository-defined passes of `optimizeGlbForAR`, composed in
transform order.  The third-party gltf-transform passes between phase
1 and phase 3 (`metalRough`, `dedup`, `flatten`, `prune`, `weld`,
`normals`) are library code outside this repository and are not part
of the embedding. -/
def arCompatPasses (doc : OptDocument) (colorMap : Option (List (String × List JsNum))) :
    OptDocument :=
  ensureMaterials (ensurePBR (cleanExtras (generateMissingUVs (colorMapPass colorMap
    (removeNonTrianglePrimitives (removeCamerasAndLights (removeSkinning
      (removeAnimations doc))))))))

/-- The data of an accessor a downstream consumer reads (its element
shape and raw values); extras are excluded since `cleanExtras`
legitimately clears them. -/
def accessorData (a : OptAccessor) : String × List JsNum := (a.type, a.array)

/-- The geometry-relevant view of a primitive: topology mode, index
data, and POSITION data. -/
def primView (p : OptPrimitive) :
    Nat × Option (String × List JsNum) × Option (String × List JsNum) :=
  (p.mode, p.indices.map accessorData, (attrGet p "POSITION").map accessorData)

theorem find?_filter_keep {l : List (String × OptAccessor)}
    {pred : String × OptAccessor → Bool} {k : String}
    (hp : ∀ kv : String × OptAccessor, kv.1 = k → pred kv = true) :
    (l.filter pred).find? (fun kv => kv.1 == k) = l.find? (fun kv => kv.1 == k) := by
  induction l with
  | nil => rfl
  | cons hd tl ih =>
    by_cases hk : hd.1 = k
    · simp [List.filter_cons, hp hd hk, List.find?_cons, hk]
    · cases hpred : pred hd
      · simp [List.filter_cons, hpred, List.find?_cons, hk, ih]
      · simp [List.filter_cons, hpred, List.find?_cons, hk, ih]

theorem find?_map_val (l : List (String × OptAccessor)) (h : OptAccessor → OptAccessor)
    (k : String) :
    (l.map fun kv => (kv.1, h kv.2)).find? (fun kv => kv.1 == k) =
      (l.find? fun kv => kv.1 == k).map fun kv => (kv.1, h kv.2) := by
  induction l with
  | nil => rfl
  | cons hd tl ih =>
    by_cases hk : hd.1 = k
    · simp [List.find?_cons, hk]
    · simp [List.find?_cons, hk, ih]

theorem primView_stripSkinAttrs (p : OptPrimitive) :
    primView (stripSkinAttrs p) = primView p := by
  unfold primView stripSkinAttrs attrGet
  rw [find?_filter_keep]
  intro kv hkv
  rw [hkv]
  rfl

theorem primView_addMissingUV (p : OptPrimitive) :
    primView (addMissingUV p) = primView p := by
  unfold addMissingUV
  cases htex : attrGet p "TEXCOORD_0" with
  | some a => rfl
  | none =>
    cases hpos : attrGet p "POSITION" with
    | none => rfl
    | some position =>
      unfold primView attrGet
      unfold attrGet at hpos
      cases hfind : p.attributes.find? (fun kv => kv.1 == "POSITION") with
      | none => rw [hfind] at hpos; exact absurd hpos (by simp)
      | some kv =>
        rw [List.find?_append, hfind]
        rfl

theorem primView_cleanPrimExtras (p : OptPrimitive) :
    primView (cleanPrimExtras p) = primView p := by
  unfold primView cleanPrimExtras attrGet
  rw [find?_map_val]
  cases p.attributes.find? (fun kv => kv.1 == "POSITION") with
  | none =>
    simp only [Option.map_none]
    refine congrArg (fun x => (p.mode, x, (none : Option (String × List JsNum)))) ?_
    rw [Option.map_map]
    rfl
  | some kv =>
    simp only [Option.map_some]
    rw [Option.map_map]
    rfl

theorem primView_assignDefaultMaterial (idx : Nat) (p : OptPrimitive) :
    primView (assignDefaultMaterial idx p) = primView p := by
  unfold assignDefaultMaterial
  split
  · rfl
  · rfl

/-- The meshes coming out of phase 1 plus color injection: each mesh
keeps its extras, its primitives are stripped of skinning attributes
and filtered down to TRIANGLES mode. -/
theorem phase1_meshes (doc : OptDocument)
    (colorMap : Option (List (String × List JsNum))) :
    (colorMapPass colorMap (removeNonTrianglePrimitives (removeCamerasAndLights
      (removeSkinning (removeAnimations doc))))).meshes =
      doc.meshes.map fun m =>
        { primitives := (m.primitives.map stripSkinAttrs).filter fun p => p.mode == 4,
          extras := m.extras } := by
  have hbase : (removeNonTrianglePrimitives (removeCamerasAndLights
      (removeSkinning (removeAnimations doc)))).meshes =
      doc.meshes.map fun m =>
        { primitives := (m.primitives.map stripSkinAttrs).filter fun p => p.mode == 4,
          extras := m.extras } := by
    simp [removeNonTrianglePrimitives, removeCamerasAndLights, removeSkinning,
      removeAnimations, List.map_map]
  cases colorMap with
  | none => exact hbase
  | some cm =>
    by_cases hcm : cm.length > 0
    · simpa [colorMapPass, hcm, applyColorMap] using hbase
    · simpa [colorMapPass, hcm] using hbase

/-- The meshes coming out of phase 3: each mesh loses its extras and
its primitives undergo a primView-preserving per-primitive map. -/
theorem phase3_meshes (d : OptDocument) :
    ∃ φ : OptPrimitive → OptPrimitive,
      (∀ p, primView (φ p) = primView p) ∧
      (ensureMaterials (ensurePBR (cleanExtras (generateMissingUVs d)))).meshes =
        d.meshes.map fun m =>
          { primitives := m.primitives.map φ, extras := [] } := by
  have hgm : (ensurePBR (cleanExtras (generateMissingUVs d))).meshes =
      d.meshes.map fun m =>
        { primitives := m.primitives.map fun p => cleanPrimExtras (addMissingUV p),
          extras := [] } := by
    simp [ensurePBR, cleanExtras, generateMissingUVs, List.map_map]
  unfold ensureMaterials
  split
  · refine ⟨fun p => assignDefaultMaterial
      (ensurePBR (cleanExtras (generateMissingUVs d))).materials.length
      (cleanPrimExtras (addMissingUV p)), ?_, ?_⟩
    · intro p
      rw [primView_assignDefaultMaterial, primView_cleanPrimExtras,
        primView_addMissingUV]
    · show ((ensurePBR (cleanExtras (generateMissingUVs d))).meshes.map _) = _
      rw [hgm]
      simp [List.map_map]
  · refine ⟨fun p => cleanPrimExtras (addMissingUV p), ?_, hgm⟩
    intro p
    rw [primView_cleanPrimExtras, primView_addMissingUV]

/-- What the pipeline does to one mesh, given the primView-preserving
per-primitive post-transformation `φ`. -/
def triMeshMap (φ : OptPrimitive → OptPrimitive) (m : OptMesh) : OptMesh :=
  { primitives := ((m.primitives.map stripSkinAttrs).filter fun p => p.mode == 4).map φ,
    extras := [] }

/-- The meshes of the composed embedded pipeline: every mesh is the
original with skinning attributes stripped, non-triangle primitives
filtered out, and a primView-preserving post-transformation applied. -/
theorem arCompatPasses_meshes (doc : OptDocument)
    (colorMap : Option (List (String × List JsNum))) :
    ∃ φ : OptPrimitive → OptPrimitive,
      (∀ p, primView (φ p) = primView p) ∧
      (arCompatPasses doc colorMap).meshes = doc.meshes.map (triMeshMap φ) := by
  obtain ⟨φ, hφ, hmesh⟩ := phase3_meshes (colorMapPass colorMap
    (removeNonTrianglePrimitives (removeCamerasAndLights (removeSkinning
      (removeAnimations doc)))))
  refine ⟨φ, hφ, ?_⟩
  unfold arCompatPasses triMeshMap
  rw [hmesh, phase1_meshes, List.map_map]
  rfl

/-- C3: the transform pipeline deletes every primitive whose topology
mode is not TRIANGLES (4): afterwards every surviving primitive has
mode TRIANGLES, and each one's topology mode, index data and POSITION
data are those of a TRIANGLES primitive of the same mesh of the input
document — line/point geometry is never reinterpreted as triangles. -/
theorem arCompatPasses_triangles (doc : OptDocument)
    (colorMap : Option (List (String × List JsNum))) :
    (arCompatPasses doc colorMap).meshes.length = doc.meshes.length ∧
    (∀ m ∈ (arCompatPasses doc colorMap).meshes, ∀ p ∈ m.primitives, p.mode = 4) ∧
    (∀ i : Nat, ∀ hi : i < (arCompatPasses doc colorMap).meshes.length,
      ∀ hi' : i < doc.meshes.length,
      ∀ p ∈ ((arCompatPasses doc colorMap).meshes.get ⟨i, hi⟩).primitives,
        ∃ q ∈ (doc.meshes.get ⟨i, hi'⟩).primitives,
          q.mode = 4 ∧ primView p = primView q) := by
  obtain ⟨φ, hφ, hmesh⟩ := arCompatPasses_meshes doc colorMap
  refine ⟨by rw [hmesh]; simp, ?_, ?_⟩
  · intro m hm p hp
    rw [hmesh] at hm
    obtain ⟨m₀, _, rfl⟩ := List.mem_map.mp hm
    obtain ⟨r, hr, rfl⟩ := List.mem_map.mp hp
    have h4 : (r.mode == 4) = true := (List.mem_filter.mp hr).2
    have hmode : (φ r).mode = r.mode :=
      congrArg (fun v => v.1) (hφ r)
    rw [hmode]
    simpa using h4
  · intro i hi hi' p hp
    have hi₂ : i < (doc.meshes.map (triMeshMap φ)).length := by
      simpa using hi'
    have hget : ((arCompatPasses doc colorMap).meshes.get ⟨i, hi⟩) =
        triMeshMap φ (doc.meshes.get ⟨i, hi'⟩) := by
      rw [list_get_congr hmesh hi hi₂]
      simp [List.get_eq_getElem, List.getElem_map]
    rw [hget] at hp
    unfold triMeshMap at hp
    simp only [] at hp
    obtain ⟨r, hr, rfl⟩ := List.mem_map.mp hp
    have h4 : (r.mode == 4) = true := (List.mem_filter.mp hr).2
    obtain ⟨q, hq, rfl⟩ := List.mem_map.mp (List.mem_of_mem_filter hr)
    refine ⟨q, hq, ?_, ?_⟩
    · have hsm : (stripSkinAttrs q).mode = q.mode := rfl
      rw [← hsm]
      simpa using h4
    · rw [hφ, primView_stripSkinAttrs]

/-- A document with one LINES primitive and one TRIANGLES primitive. -/
def optDocMixed : OptDocument :=
  { materials := [defaultOptMaterial],
    meshes := [{ primitives :=
                   [{ mode := 1, attributes := [], indices := none,
                      material := some 0 },
                    { mode := 4,
                      attributes :=
                        [("POSITION",
                          { type := "VEC3",
                            array := [.num 1, .num 2, .num 3],
                            extras := [] })],
                      indices := none, material := some 0 }],
                 extras := [] }],
    nodes := [], animations := [], skins := [], cameras := [], extras := [] }

/-- The surviving primitive of `optDocMixed` after the pipeline. -/
def optDocMixedOutPrim : OptPrimitive :=
  { mode := 4,
    attributes :=
      [("POSITION", { type := "VEC3", array := [.num 1, .num 2, .num 3], extras := [] }),
       ("TEXCOORD_0", { type := "VEC2", array := [.num 0, .num 0], extras := [] })],
    indices := none, material := some 0 }

/-- Witness for C3 at a concrete document: the pipeline keeps one mesh,
and the surviving primitive corresponds to the TRIANGLES primitive of
the input. -/
theorem arCompatPasses_triangles_witness :
    (arCompatPasses optDocMixed none).meshes.length = optDocMixed.meshes.length ∧
    ∃ q ∈ (optDocMixed.meshes.get ⟨0, by decide⟩).primitives,
      q.mode = 4 ∧ primView optDocMixedOutPrim = primView q :=
  ⟨(arCompatPasses_triangles optDocMixed none).1,
   (arCompatPasses_triangles optDocMixed none).2.2 0 (by decide) (by decide)
     optDocMixedOutPrim (by decide)⟩

/-- The C2 scenario document: one triangle primitive (three vertices,
no TEXCOORD_0) and one material whose base color factor is
`[2.0, -1, 0.5, 1]`. -/
def scenarioDoc : OptDocument :=
  { materials := [{ name := "M",
                    baseColorFactor := [.num 2, .num (-1), .num (1/2), .num 1],
                    metallicFactor := .num 0,
                    roughnessFactor := .num 1,
                    extras := [] }],
    meshes := [{ primitives :=
                   [{ mode := 4,
                      attributes :=
                        [("POSITION",
                          { type := "VEC3",
                            array := [.num 0, .num 0, .num 0, .num 1, .num 0,
                                      .num 0, .num 0, .num 1, .num 0],
                            extras := [] })],
                      indices := none, material := some 0 }],
                 extras := [] }],
    nodes := [], animations := [], skins := [], cameras := [], extras := [] }

/-- C2, counterexample: after the pipeline the scenario material's
base color factor is still `[2.0, -1, 0.5, 1]`, not the neutral
default `[0.8, 0.8, 0.8, 1.0]` the claim predicts — `ensurePBR`
replaces the base color only when a component is NaN, and never
range-clamps it. -/
theorem scenario_base_color_not_clamped :
    ((arCompatPasses scenarioDoc none).materials.map OptMaterial.baseColorFactor) =
      [[.num 2, .num (-1), .num (1/2), .num 1]] ∧
    ((arCompatPasses scenarioDoc none).materials.map OptMaterial.baseColorFactor) ≠
      [[.num 0.8, .num 0.8, .num 0.8, .num 1.0]] := by
  have h1 : ((arCompatPasses scenarioDoc none).materials.map OptMaterial.baseColorFactor) =
      [[.num 2, .num (-1), .num (1/2), .num 1]] := rfl
  refine ⟨h1, ?_⟩
  intro h
  rw [h1] at h
  norm_num at h

/-- A variant of the scenario whose base color has a NaN component. -/
def scenarioDocNaN : OptDocument :=
  { scenarioDoc with
    materials := [{ name := "M",
                    baseColorFactor := [.nan, .num 1, .num 1, .num 1],
                    metallicFactor := .num 0,
                    roughnessFactor := .num 1,
                    extras := [] }] }

/-- C2, amended: after the pipeline the scenario primitive carries a
synthesized all-zero VEC2 UV accessor with one UV pair per POSITION
element, while the out-of-range base color `[2.0, -1, 0.5, 1]` is left
unchanged: the neutral default `[0.8, 0.8, 0.8, 1.0]` is substituted
only when the base color contains NaN (as in the variant document). -/
theorem scenario_pipeline_output :
    ((arCompatPasses scenarioDoc none).meshes.map fun m =>
        m.primitives.map fun p => attrGet p "TEXCOORD_0") =
      [[some { type := "VEC2", array := List.replicate 6 (.num 0), extras := [] }]] ∧
    ((arCompatPasses scenarioDoc none).materials.map OptMaterial.baseColorFactor) =
      [[.num 2, .num (-1), .num (1/2), .num 1]] ∧
    ((arCompatPasses scenarioDocNaN none).materials.map OptMaterial.baseColorFactor) =
      [[.num 0.8, .num 0.8, .num 0.8, .num 1.0]] := by
  refine ⟨?_, ?_, ?_⟩
  · rfl
  · rfl
  · rfl

/-! ## Binary bounds patch (glb-optimize.ts, patchAccessorBounds)

The per-accessor scan of `patchAccessorBounds`: raw element values are
decoded from the binary payload at the accessor's byte offset and
stride with the declared component type, and per-component min/max are
folded exactly as in the source (`if (val < min[j]) min[j] = val`,
with JS comparison semantics).  A decode beyond the end of the payload
models the `RangeError` Node's `Buffer` reads throw (`Option.none`
aborts the scan, as the exception aborts the pass). -/

/-- Table `COMPONENT_SIZES`. -/
def componentSizes (t : Nat) : Option Nat :=
  if t = 5120 then some 1
  else if t = 5121 then some 1
  else if t = 5122 then some 2
  else if t = 5123 then some 2
  else if t = 5125 then some 4
  else if t = 5126 then some 4
  else none

/-- Table `ELEMENT_COUNTS`. -/
def elementCounts (t : String) : Option Nat :=
  if t = "SCALAR" then some 1
  else if t = "VEC2" then some 2
  else if t = "VEC3" then some 3
  else if t = "VEC4" then some 4
  else if t = "MAT2" then some 4
  else if t = "MAT3" then some 9
  else if t = "MAT4" then some 16
  else none

/-- IEEE-754 binary32 value of a 32-bit pattern, as a `JsNum` (exact:
every finite float is a rational). -/
def float32OfBits (bits : Nat) : JsNum :=
  let sign : ℕ := bits / 2 ^ 31 % 2
  let expo : ℕ := bits / 2 ^ 23 % 256
  let mant : ℕ := bits % 2 ^ 23
  if expo = 255 then
    if mant = 0 then (if sign = 1 then .ninf else .inf) else .nan
  else
    let mag : ℚ :=
      if expo = 0 then (mant : ℚ) * (2 : ℚ) ^ (-149 : ℤ)
      else ((2 ^ 23 + mant : ℕ) : ℚ) * (2 : ℚ) ^ ((expo : ℤ) - 150)
    .num (if sign = 1 then -mag else mag)

def readUInt8opt (bin : List Nat) (off : Nat) : Option JsNum :=
  (bin.get? off).map fun b => .num (b : ℚ)

def readUInt16LEopt (bin : List Nat) (off : Nat) : Option JsNum :=
  match bin.get? off, bin.get? (off + 1) with
  | some b0, some b1 => some (.num ((b0 + 256 * b1 : ℕ) : ℚ))
  | _, _ => none

def readUInt32LEopt (bin : List Nat) (off : Nat) : Option JsNum :=
  match bin.get? off, bin.get? (off + 1), bin.get? (off + 2), bin.get? (off + 3) with
  | some b0, some b1, some b2, some b3 =>
    some (.num ((b0 + 256 * b1 + 65536 * b2 + 16777216 * b3 : ℕ) : ℚ))
  | _, _, _, _ => none

def readInt8opt (bin : List Nat) (off : Nat) : Option JsNum :=
  (bin.get? off).map fun b =>
    if b < 128 then .num (b : ℚ) else .num ((b : ℚ) - 256)

def readInt16LEopt (bin : List Nat) (off : Nat) : Option JsNum :=
  match bin.get? off, bin.get? (off + 1) with
  | some b0, some b1 =>
    let u := b0 + 256 * b1
    some (if u < 32768 then .num (u : ℚ) else .num ((u : ℚ) - 65536))
  | _, _ => none

def readFloatLEopt (bin : List Nat) (off : Nat) : Option JsNum :=
  match bin.get? off, bin.get? (off + 1), bin.get? (off + 2), bin.get? (off + 3) with
  | some b0, some b1, some b2, some b3 =>
    some (float32OfBits (b0 + 256 * b1 + 65536 * b2 + 16777216 * b3))
  | _, _, _, _ => none

/-- The component decode dispatch of the inner loop (the
`if (compType === 5126) ... else continue` chain). -/
def decodeComp (compType : Nat) (bin : List Nat) (off : Nat) : Option JsNum :=
  if compType = 5126 then readFloatLEopt bin off
  else if compType = 5125 then readUInt32LEopt bin off
  else if compType = 5123 then readUInt16LEopt bin off
  else if compType = 5121 then readUInt8opt bin off
  else if compType = 5122 then readInt16LEopt bin off
  else if compType = 5120 then readInt8opt bin off
  else none

/-- The inner component loop (`for (let j = 0; ...)`) over the listed
`j` values, updating the min/max arrays in place. -/
def scanComps (bin : List Nat) (compType compSize base : Nat) :
    List Nat → List JsNum → List JsNum → Option (List JsNum × List JsNum)
  | [], mn, mx => some (mn, mx)
  | j :: js, mn, mx =>
    match decodeComp compType bin (base + j * compSize) with
    | none => none
    | some v =>
      let mn' := if jsLt v (mn.getD j .nan) = true then mn.set j v else mn
      let mx' := if jsLt (mx.getD j .nan) v = true then mx.set j v else mx
      scanComps bin compType compSize base js mn' mx'

/-- The outer element loop (`for (let i = 0; i < accessor.count; ...)`). -/
def scanElems (bin : List Nat) (compType compSize stride byteOffset elemCount : Nat) :
    List Nat → List JsNum → List JsNum → Option (List JsNum × List JsNum)
  | [], mn, mx => some (mn, mx)
  | i :: is, mn, mx =>
    match scanComps bin compType compSize (byteOffset + i * stride)
        (List.range elemCount) mn mx with
    | none => none
    | some st => scanElems bin compType compSize stride byteOffset elemCount is st.1 st.2

structure GltfAccessor where
  min : Option (List JsNum)
  max : Option (List JsNum)
  count : Nat
  type : String
  componentType : Nat
  byteOffset : Option Nat
  bufferView : Option Nat
deriving DecidableEq, Repr

structure GltfBufferView where
  byteOffset : Option Nat
  byteStride : Option Nat
deriving DecidableEq, Repr

/-- Stride `bv.byteStride || (compSize * elemCount)` (0 is falsy). -/
def strideOf (bv : GltfBufferView) (compSize elemCount : Nat) : Nat :=
  match bv.byteStride with
  | some s => if s = 0 then compSize * elemCount else s
  | none => compSize * elemCount

/-- Base offset `(bv.byteOffset || 0) + (accessor.byteOffset || 0)`. -/
def accessorBase (bv : GltfBufferView) (acc : GltfAccessor) : Nat :=
  bv.byteOffset.getD 0 + acc.byteOffset.getD 0

/-- One iteration of the accessor loop of `patchAccessorBounds`:
skipped accessors come back unchanged (`some acc`), a completed scan
installs the computed min/max, an out-of-range read aborts (`none`,
the thrown RangeError). -/
def patchOneAccessor (bvs : List GltfBufferView) (bin : List Nat)
    (acc : GltfAccessor) : Option GltfAccessor :=
  if acc.min.isSome ∧ acc.max.isSome then some acc
  else if acc.count = 0 then some acc
  else match elementCounts acc.type with
  | none => some acc
  | some elemCount =>
    match componentSizes acc.componentType with
    | none => some acc
    | some compSize =>
      match acc.bufferView.bind (fun i => bvs.get? i) with
      | none => some acc
      | some bv =>
        match scanElems bin acc.componentType compSize
            (strideOf bv compSize elemCount) (accessorBase bv acc) elemCount
            (List.range acc.count)
            (List.replicate elemCount .inf) (List.replicate elemCount .ninf) with
        | none => none
        | some st => some { acc with min := some st.1, max := some st.2 }

theorem jsLt_nan_right (v : JsNum) : jsLt v .nan = false := by
  cases v
  all_goals rfl

theorem jsLt_chain {a b c : JsNum} (h1 : a = b ∨ jsLt a b = true)
    (h2 : b = c ∨ jsLt b c = true) : a = c ∨ jsLt a c = true := by
  rcases h1 with rfl | h1
  · exact h2
  · rcases h2 with rfl | h2
    · right; exact h1
    · right; exact jsLt_trans h1 h2

theorem not_lt_of_chain {v m m' : JsNum} (h : jsLt v m = false)
    (hm : m' = m ∨ jsLt m' m = true) : jsLt v m' = false := by
  rcases hm with rfl | hm
  · exact h
  · by_contra hc
    have hc' : jsLt v m' = true := by simpa using hc
    rw [jsLt_trans hc' hm] at h
    cases h

theorem jsGt_chain {a b c : JsNum} (h1 : a = b ∨ jsLt b a = true)
    (h2 : b = c ∨ jsLt c b = true) : a = c ∨ jsLt c a = true := by
  rcases h1 with rfl | h1
  · exact h2
  · rcases h2 with rfl | h2
    · right; exact h1
    · right; exact jsLt_trans h2 h1

theorem not_gt_of_chain {v m m' : JsNum} (h : jsLt m v = false)
    (hm : m' = m ∨ jsLt m m' = true) : jsLt m' v = false := by
  rcases hm with rfl | hm
  · exact h
  · by_contra hc
    have hc' : jsLt m' v = true := by simpa using hc
    rw [jsLt_trans hm hc'] at h
    cases h

/-- After the `if (val < min[j]) min[j] = val` update, the value is
not strictly below the updated entry. -/
theorem minStep_not_lt (mn : List JsNum) (j : Nat) (v : JsNum) :
    jsLt v ((if jsLt v (mn.getD j .nan) = true then mn.set j v else mn).getD j .nan) =
      false := by
  by_cases h : jsLt v (mn.getD j .nan) = true
  · rw [if_pos h]
    by_cases hj : j < mn.length
    · have : (mn.set j v).getD j .nan = v := by
        simp [List.getD_eq_getElem?_getD, List.getElem?_set_self, hj]
      rw [this]
      exact jsLt_irrefl v
    · have hge : mn.length ≤ j := Nat.le_of_not_lt hj
      rw [List.getD_eq_getElem?_getD, List.getElem?_eq_none hge,
        Option.getD_none, jsLt_nan_right] at h
      cases h
  · rw [if_neg h]
    simpa using h

/-- The min-update only ever lowers entries. -/
theorem minStep_chain (mn : List JsNum) (j k : Nat) (v : JsNum) :
    ((if jsLt v (mn.getD j .nan) = true then mn.set j v else mn).getD k .nan) =
        mn.getD k .nan ∨
      jsLt ((if jsLt v (mn.getD j .nan) = true then mn.set j v else mn).getD k .nan)
        (mn.getD k .nan) = true := by
  by_cases h : jsLt v (mn.getD j .nan) = true
  · rw [if_pos h]
    by_cases hk : k = j
    · subst hk
      by_cases hj : k < mn.length
      · right
        have : (mn.set k v).getD k .nan = v := by
          simp [List.getD_eq_getElem?_getD, List.getElem?_set_self, hj]
        rw [this]
        exact h
      · left
        rw [List.set_eq_of_length_le (Nat.le_of_not_lt hj)]
    · left
      simp [List.getD_eq_getElem?_getD, List.getElem?_set_ne (Ne.symm hk)]
  · rw [if_neg h]
    left
    rfl

/-- After the `if (val > max[j]) max[j] = val` update, the value is
not strictly above the updated entry. -/
theorem maxStep_not_gt (mx : List JsNum) (j : Nat) (v : JsNum) :
    jsLt ((if jsLt (mx.getD j .nan) v = true then mx.set j v else mx).getD j .nan) v =
      false := by
  by_cases h : jsLt (mx.getD j .nan) v = true
  · rw [if_pos h]
    by_cases hj : j < mx.length
    · have : (mx.set j v).getD j .nan = v := by
        simp [List.getD_eq_getElem?_getD, List.getElem?_set_self, hj]
      rw [this]
      exact jsLt_irrefl v
    · have hge : mx.length ≤ j := Nat.le_of_not_lt hj
      rw [List.getD_eq_getElem?_getD, List.getElem?_eq_none hge,
        Option.getD_none] at h
      cases v
      all_goals cases h
  · rw [if_neg h]
    simpa using h

/-- The max-update only ever raises entries. -/
theorem maxStep_chain (mx : List JsNum) (j k : Nat) (v : JsNum) :
    ((if jsLt (mx.getD j .nan) v = true then mx.set j v else mx).getD k .nan) =
        mx.getD k .nan ∨
      jsLt (mx.getD k .nan)
        ((if jsLt (mx.getD j .nan) v = true then mx.set j v else mx).getD k .nan) = true := by
  by_cases h : jsLt (mx.getD j .nan) v = true
  · rw [if_pos h]
    by_cases hk : k = j
    · subst hk
      by_cases hj : k < mx.length
      · right
        have : (mx.set k v).getD k .nan = v := by
          simp [List.getD_eq_getElem?_getD, List.getElem?_set_self, hj]
        rw [this]
        exact h
      · left
        rw [List.set_eq_of_length_le (Nat.le_of_not_lt hj)]
    · left
      simp [List.getD_eq_getElem?_getD, List.getElem?_set_ne (Ne.symm hk)]
  · rw [if_neg h]
    left
    rfl

/-- Completed inner loop: entries only move toward the data, and every
value decoded during it is bounded by the final entries. -/
theorem scanComps_spec (bin : List Nat) (compType compSize base : Nat) :
    ∀ (js : List Nat) (mn mx mn' mx' : List JsNum),
      scanComps bin compType compSize base js mn mx = some (mn', mx') →
      (∀ k, mn'.getD k .nan = mn.getD k .nan ∨
        jsLt (mn'.getD k .nan) (mn.getD k .nan) = true) ∧
      (∀ k, mx'.getD k .nan = mx.getD k .nan ∨
        jsLt (mx.getD k .nan) (mx'.getD k .nan) = true) ∧
      (∀ j ∈ js, ∀ v, decodeComp compType bin (base + j * compSize) = some v →
        jsLt v (mn'.getD j .nan) = false ∧ jsLt (mx'.getD j .nan) v = false) := by
  intro js
  induction js with
  | nil =>
    intro mn mx mn' mx' hrun
    injection hrun with h
    injection h with h1 h2
    subst h1; subst h2
    exact ⟨fun k => Or.inl rfl, fun k => Or.inl rfl, by intro j hj; cases hj⟩
  | cons j js ih =>
    intro mn mx mn' mx' hrun
    unfold scanComps at hrun
    cases hdec : decodeComp compType bin (base + j * compSize) with
    | none => rw [hdec] at hrun; cases hrun
    | some v =>
      rw [hdec] at hrun
      simp only [] at hrun
      obtain ⟨hmn, hmx, hrest⟩ := ih _ _ _ _ hrun
      refine ⟨?_, ?_, ?_⟩
      · intro k
        exact jsLt_chain (hmn k) (minStep_chain mn j k v)
      · intro k
        exact jsGt_chain (hmx k) (maxStep_chain mx j k v)
      · intro j' hj' v' hdec'
        rcases List.mem_cons.mp hj' with rfl | hj'
        · rw [hdec] at hdec'
          injection hdec' with hv
          subst hv
          exact ⟨not_lt_of_chain (minStep_not_lt mn j' v) (hmn j'),
                 not_gt_of_chain (maxStep_not_gt mx j' v) (hmx j')⟩
        · exact hrest j' hj' v' hdec'

/-- Completed outer loop: every component value decoded from any
processed element is bounded by the final min/max arrays. -/
theorem scanElems_spec (bin : List Nat) (compType compSize stride off n : Nat) :
    ∀ (is : List Nat) (mn mx mn' mx' : List JsNum),
      scanElems bin compType compSize stride off n is mn mx = some (mn', mx') →
      (∀ k, mn'.getD k .nan = mn.getD k .nan ∨
        jsLt (mn'.getD k .nan) (mn.getD k .nan) = true) ∧
      (∀ k, mx'.getD k .nan = mx.getD k .nan ∨
        jsLt (mx.getD k .nan) (mx'.getD k .nan) = true) ∧
      (∀ i ∈ is, ∀ j < n, ∀ v,
        decodeComp compType bin (off + i * stride + j * compSize) = some v →
        jsLt v (mn'.getD j .nan) = false ∧ jsLt (mx'.getD j .nan) v = false) := by
  intro is
  induction is with
  | nil =>
    intro mn mx mn' mx' hrun
    injection hrun with h
    injection h with h1 h2
    subst h1; subst h2
    exact ⟨fun k => Or.inl rfl, fun k => Or.inl rfl, by intro i hi; cases hi⟩
  | cons i is ih =>
    intro mn mx mn' mx' hrun
    unfold scanElems at hrun
    cases hsc : scanComps bin compType compSize (off + i * stride) (List.range n) mn mx with
    | none => rw [hsc] at hrun; cases hrun
    | some st =>
      rw [hsc] at hrun
      obtain ⟨mn₁, mx₁⟩ := st
      obtain ⟨hmn, hmx, hrest⟩ := ih _ _ _ _ hrun
      obtain ⟨smn, smx, sbound⟩ :=
        scanComps_spec bin compType compSize (off + i * stride) (List.range n)
          mn mx mn₁ mx₁ hsc
      refine ⟨?_, ?_, ?_⟩
      · intro k
        exact jsLt_chain (hmn k) (smn k)
      · intro k
        exact jsGt_chain (hmx k) (smx k)
      · intro i' hi' j hj v hdec
        rcases List.mem_cons.mp hi' with rfl | hi'
        · obtain ⟨hlo, hhi⟩ := sbound j (List.mem_range.mpr hj) v hdec
          exact ⟨not_lt_of_chain hlo (hmn j), not_gt_of_chain hhi (hmx j)⟩
        · exact hrest i' hi' j hj v hdec

/-- C1: whenever `patchAccessorBounds` computes min/max for an
accessor that lacked them (nonzero count, recognized element shape and
component type, resolvable buffer view) and the scan completes, the
min/max arrays it writes bound every component value decoded from the
binary payload at the accessor's byte offset and stride: no component
of any element is strictly below the declared min or strictly above
the declared max (JS comparison semantics; NaN compares false both
ways). -/
theorem patchAccessorBounds_bounds
    (bvs : List GltfBufferView) (bin : List Nat) (acc acc' : GltfAccessor)
    (bv : GltfBufferView) (elemCount compSize : Nat) (mn mx : List JsNum)
    (hskip : ¬(acc.min.isSome ∧ acc.max.isSome))
    (hcount : acc.count ≠ 0)
    (helem : elementCounts acc.type = some elemCount)
    (hcomp : componentSizes acc.componentType = some compSize)
    (hbv : acc.bufferView.bind (fun i => bvs.get? i) = some bv)
    (hrun : patchOneAccessor bvs bin acc = some acc')
    (hmn : acc'.min = some mn) (hmx : acc'.max = some mx) :
    ∀ i < acc.count, ∀ j < elemCount, ∀ v,
      decodeComp acc.componentType bin
        (accessorBase bv acc + i * strideOf bv compSize elemCount + j * compSize) =
        some v →
      jsLt v (mn.getD j .nan) = false ∧ jsLt (mx.getD j .nan) v = false := by
  unfold patchOneAccessor at hrun
  rw [if_neg hskip, if_neg hcount, helem, hcomp, hbv] at hrun
  dsimp only [] at hrun
  cases hscan : scanElems bin acc.componentType compSize
      (strideOf bv compSize elemCount) (accessorBase bv acc) elemCount
      (List.range acc.count)
      (List.replicate elemCount .inf) (List.replicate elemCount .ninf) with
  | none =>
    rw [hscan] at hrun
    cases hrun
  | some st =>
    rw [hscan] at hrun
    obtain ⟨mn₁, mx₁⟩ := st
    injection hrun with hacc
    subst hacc
    simp only [] at hmn hmx
    injection hmn with hmn
    injection hmx with hmx
    subst hmn; subst hmx
    obtain ⟨_, _, hbound⟩ :=
      scanElems_spec bin acc.componentType compSize
        (strideOf bv compSize elemCount) (accessorBase bv acc) elemCount
        (List.range acc.count) _ _ _ _ hscan
    intro i hi j hj v hdec
    exact hbound i (List.mem_range.mpr hi) j hj v hdec

def boundsAcc : GltfAccessor :=
  { min := none, max := none, count := 2, type := "SCALAR",
    componentType := 5121, byteOffset := none, bufferView := some 0 }

def boundsBv : GltfBufferView := { byteOffset := some 0, byteStride := none }

def boundsAccOut : GltfAccessor :=
  { boundsAcc with min := some [.num 3], max := some [.num 5] }

/-- Witness for C1 at a two-byte unsigned payload `[5, 3]`: the pass
writes min `[3]`, max `[5]`, and the element read at index 1 is inside
the bounds. -/
theorem patchAccessorBounds_bounds_witness :
    jsLt (.num 3) ([(.num 3 : JsNum)].getD 0 .nan) = false ∧
      jsLt ([(.num 5 : JsNum)].getD 0 .nan) (.num 3) = false :=
  patchAccessorBounds_bounds [boundsBv] [5, 3] boundsAcc boundsAccOut boundsBv 1 1
    [.num 3] [.num 5] (by decide) (by decide) (by decide) (by decide) (by decide)
    (by decide) (by decide) (by decide) 1 (by decide) 0 (by decide) (.num 3) (by decide)

/-! ## Container reassembly (glb-optimize.ts, patchAccessorBounds lines
192-217): rebuilding the GLB around the patched structural chunk.

The rebuild is parametrized by the serialized patched JSON
(`JSON.stringify(gltf)` is a library call whose output feeds in as
bytes).  The early `return buf` path (no accessors/bufferViews/
buffers) returns the input verbatim and trivially preserves the binary
chunk.  `Buffer.alloc` zero-fills; the trailing `List.replicate ... 0`
models the bytes the copies leave untouched when the input lacks a
complete binary chunk (empty whenever the input contains one). -/

/-- JSON chunk padding to 4-byte alignment with ASCII spaces (0x20). -/
def pad4spaces (j : List Nat) : List Nat :=
  j ++ List.replicate ((4 - j.length % 4) % 4) 32

def reassembleGlb (buf : List Nat) (newJson : List Nat) : List Nat :=
  let jsonChunkLen := readUInt32LE buf 12
  let binChunkOffset := 12 + 8 + jsonChunkLen
  let binChunkHeader := (buf.drop binChunkOffset).take 8
  let binData := buf.drop (binChunkOffset + 8)
  let jsonBuf := pad4spaces newJson
  let totalLen := 12 + 8 + jsonBuf.length + 8 + binData.length
  u32le 0x46546C67 ++ u32le 2 ++ u32le totalLen ++
    u32le jsonBuf.length ++ u32le 0x4E4F534A ++ jsonBuf ++
    binChunkHeader ++ binData ++
    List.replicate (totalLen - (20 + jsonBuf.length + binChunkHeader.length +
      binData.length)) 0

/-- C9: for any input containing a complete binary chunk header, the
rebuilt container carries the input's binary chunk — 8-byte chunk
header and payload — byte-for-byte at its new offset; the freshly
written part is exactly the 12-byte header (magic, version 2,
recomputed total length) and the JSON chunk header and padded JSON
chunk. -/
theorem reassembleGlb_preserves_bin (buf newJson : List Nat)
    (hlen : 12 + 8 + readUInt32LE buf 12 + 8 ≤ buf.length) :
    (reassembleGlb buf newJson).drop (20 + (pad4spaces newJson).length) =
      buf.drop (12 + 8 + readUInt32LE buf 12) ∧
    (reassembleGlb buf newJson).length =
      12 + 8 + (pad4spaces newJson).length + 8 +
        (buf.length - (12 + 8 + readUInt32LE buf 12 + 8)) ∧
    (reassembleGlb buf newJson).take 4 = u32le 0x46546C67 ∧
    ((reassembleGlb buf newJson).drop 4).take 4 = u32le 2 ∧
    ((reassembleGlb buf newJson).drop 8).take 4 =
      u32le (12 + 8 + (pad4spaces newJson).length + 8 +
        (buf.drop (12 + 8 + readUInt32LE buf 12 + 8)).length) ∧
    ((reassembleGlb buf newJson).drop 12).take 4 =
      u32le (pad4spaces newJson).length ∧
    ((reassembleGlb buf newJson).drop 16).take 4 = u32le 0x4E4F534A ∧
    ((reassembleGlb buf newJson).drop 20).take (pad4spaces newJson).length =
      pad4spaces newJson := by
  have hhdr : ((buf.drop (12 + 8 + readUInt32LE buf 12)).take 8).length = 8 := by
    rw [List.length_take, List.length_drop]
    omega
  have hsplit : (buf.drop (12 + 8 + readUInt32LE buf 12)).take 8 ++
      buf.drop (12 + 8 + readUInt32LE buf 12 + 8) =
      buf.drop (12 + 8 + readUInt32LE buf 12) := by
    have hdd : buf.drop (12 + 8 + readUInt32LE buf 12 + 8) =
        (buf.drop (12 + 8 + readUInt32LE buf 12)).drop 8 := by
      rw [List.drop_drop]
    rw [hdd]
    exact List.take_append_drop 8 _
  have hpad : (12 + 8 + (pad4spaces newJson).length + 8 +
      (buf.drop (12 + 8 + readUInt32LE buf 12 + 8)).length) -
      (20 + (pad4spaces newJson).length +
        ((buf.drop (12 + 8 + readUInt32LE buf 12)).take 8).length +
        (buf.drop (12 + 8 + readUInt32LE buf 12 + 8)).length) = 0 := by
    rw [hhdr]
    omega
  refine ⟨?_, ?_, ?_, ?_, ?_, ?_, ?_, ?_⟩
  · unfold reassembleGlb
    dsimp only
    rw [hpad]
    simp only [List.replicate_zero, List.append_nil]
    rw [← List.drop_drop]
    simp only [u32le, List.cons_append, List.nil_append, List.drop_succ_cons,
      List.drop_zero, List.append_assoc]
    rw [List.drop_left]
    exact hsplit
  · unfold reassembleGlb
    dsimp only
    rw [hpad]
    simp [u32le, List.length_append, List.length_drop, List.length_take]
    omega
  · unfold reassembleGlb
    dsimp only
    simp [u32le]
  · unfold reassembleGlb
    dsimp only
    simp [u32le]
  · unfold reassembleGlb
    dsimp only
    simp [u32le]
  · unfold reassembleGlb
    dsimp only
    simp [u32le]
  · unfold reassembleGlb
    dsimp only
    simp [u32le]
  · unfold reassembleGlb
    dsimp only
    simp only [u32le, List.cons_append, List.nil_append, List.drop_succ_cons,
      List.drop_zero, List.append_assoc]
    rw [List.take_left]

/-- A small container: 12-byte header, 4-byte JSON chunk (declared at
offset 12), an 8-byte binary chunk header and 2 payload bytes. -/
def reassembleBufW : List Nat :=
  List.replicate 12 7 ++ [4, 0, 0, 0] ++ List.replicate 4 9 ++
    List.replicate 4 1 ++ List.replicate 8 66 ++ [1, 2]

/-- Witness for C9 at a concrete container and patched JSON. -/
theorem reassembleGlb_preserves_bin_witness :
    (reassembleGlb reassembleBufW [123, 125]).drop
        (20 + (pad4spaces [123, 125]).length) =
      reassembleBufW.drop (12 + 8 + readUInt32LE reassembleBufW 12) :=
  (reassembleGlb_preserves_bin reassembleBufW [123, 125] (by decide)).1

/-! ## Container read and annotation extraction
(app/api/upload/route.ts, parseGlbAnnotations)

The byte-level header validation and the per-node annotation
extraction are embedded separately; `JSON.parse` is a library call and
enters as an oracle argument mapping the stripped structural payload
to the parsed node list (with the `gltf.nodes || []` defaulting
applied). -/

def isJsSpace (c : Char) : Bool :=
  c.toNat = 32 || c.toNat = 9 || c.toNat = 10 || c.toNat = 13 ||
    c.toNat = 11 || c.toNat = 12 || c.toNat = 160 || c.toNat = 65279

/-- JS `String.prototype.trim`. -/
def jsTrim (s : String) : String :=
  String.mk (((s.data.dropWhile isJsSpace).reverse.dropWhile isJsSpace).reverse)

/-- Strip the trailing null padding of the structural chunk
(`.replace(/\0+$/, '')`, at the byte level). -/
def stripTrailingNulls (l : List Nat) : List Nat :=
  (l.reverse.dropWhile (· == 0)).reverse

def GLB_MAGIC : Nat := 0x46546C67
def JSON_CHUNK_TYPE : Nat := 0x4E4F534A

/-- The header validation and structural-chunk extraction of
`parseGlbAnnotations`: each thrown `Error` of the source is an
`Except.error` carrying its message. -/
def glbStructuralChunk (buf : List Nat) : Except String (List Nat) :=
  if buf.length < 20 then
    .error "Buffer too small to be a valid GLB file"
  else if readUInt32LE buf 0 ≠ GLB_MAGIC then
    .error "Invalid GLB magic"
  else if readUInt32LE buf 16 ≠ JSON_CHUNK_TYPE then
    .error "First chunk is not JSON"
  else if 20 + readUInt32LE buf 12 > buf.length then
    .error "JSON chunk length exceeds buffer size"
  else
    .ok (stripTrailingNulls ((buf.drop 20).take (readUInt32LE buf 12)))

structure GlbNode where
  /-- Field `node.name`; `none` covers both an absent field and a non-string
  value (the source checks `typeof name !== 'string'`). -/
  name : Option String
  translation : Option (List ℚ)
  matrix : Option (List ℚ)
  /-- Entries of the `extras` object, values already stringified
  (`String(rawExtras[key])`); `none` when `extras` is absent, null or
  not a plain object. -/
  extras : Option (List (String × String))
deriving DecidableEq, Repr

structure GlbAnnotation where
  id : String
  label : String
  px : ℚ
  py : ℚ
  pz : ℚ
  metadata : List (String × String)
deriving DecidableEq, Repr

/-- First match of `/\[(\d+)\]/`: a bracketed digit run. -/
def bracketNum : List Char → Option String
  | [] => none
  | c :: rest =>
    if c = '[' then
      let ds := rest.takeWhile Char.isDigit
      if ds ≠ [] ∧ rest.getD ds.length ' ' = ']' then some (String.mk ds)
      else bracketNum rest
    else bracketNum rest

/-- Search `name.lastIndexOf(' [')`. -/
def lastIndexOfSpaceBracket (cs : List Char) : Option Nat :=
  ((List.range cs.length).filter fun i =>
    cs.get? i = some ' ' && cs.get? (i + 1) = some '[').getLast?

/-- Text `name.substring(0, name.lastIndexOf(' ['))` (JS `substring` clamps
the negative index of a failed search to 0, yielding the empty
string). -/
def familyBase (name : String) : String :=
  match lastIndexOfSpaceBracket name.data with
  | some i => String.mk (name.data.take i)
  | none => ""

/-- The body of the `nodes.forEach` loop: one annotation per node with
a non-empty display name. -/
def extractNodeAnnotation (index : Nat) (node : GlbNode) : Option GlbAnnotation :=
  match node.name with
  | none => none
  | some name =>
    if jsTrim name = "" then none
    else
      let pos :=
        match node.translation with
        | some t =>
          if t.length ≥ 3 then (t.getD 0 0, t.getD 1 0, t.getD 2 0)
          else
            match node.matrix with
            | some m => if m.length = 16 then (m.getD 12 0, m.getD 13 0, m.getD 14 0)
                        else ((0 : ℚ), (0 : ℚ), (0 : ℚ))
            | none => ((0 : ℚ), (0 : ℚ), (0 : ℚ))
        | none =>
          match node.matrix with
          | some m => if m.length = 16 then (m.getD 12 0, m.getD 13 0, m.getD 14 0)
                      else ((0 : ℚ), (0 : ℚ), (0 : ℚ))
          | none => ((0 : ℚ), (0 : ℚ), (0 : ℚ))
      let metadata :=
        match node.extras with
        | some l =>
          if l.length ≠ 0 then l
          else
            match bracketNum name.data with
            | some ds =>
              if jsTrim (familyBase name) ≠ "" then
                [("revit_element_id", ds), ("family_type", jsTrim (familyBase name))]
              else [("revit_element_id", ds)]
            | none => []
        | none =>
          match bracketNum name.data with
          | some ds =>
            if jsTrim (familyBase name) ≠ "" then
              [("revit_element_id", ds), ("family_type", jsTrim (familyBase name))]
            else [("revit_element_id", ds)]
          | none => []
      some { id := "ann_" ++ toString index, label := name,
             px := pos.1, py := pos.2.1, pz := pos.2.2, metadata := metadata }

/-- The annotation list produced from the parsed node list. -/
def extractAnnotations (nodes : List GlbNode) : List GlbAnnotation :=
  nodes.enum.filterMap fun p => extractNodeAnnotation p.1 p.2

/-- Function `parseGlbAnnotations`, with `JSON.parse` (plus the
`gltf.nodes || []` defaulting) abstracted as an oracle on the stripped
payload bytes. -/
def parseGlbAnnotationsWith (jsonParse : List Nat → Option (List GlbNode))
    (buf : List Nat) : Except String (List GlbAnnotation) :=
  match glbStructuralChunk buf with
  | .error e => .error e
  | .ok payload =>
    match jsonParse payload with
    | none => .error "JSON parse error"
    | some nodes => .ok (extractAnnotations nodes)

/-- C4: the container read fails with the malformed-container error
iff the buffer is shorter than the fixed 20-byte prelude (12-byte
header plus first chunk header), the magic differs from 0x46546C67,
the first chunk type is not the structural JSON type 0x4E4F534A, or
the declared first-chunk length reads past the buffer end; on every
other buffer whose stripped structural chunk parses, it returns the
extracted annotation list without throwing. -/
theorem parseGlbAnnotations_malformed (buf : List Nat) :
    ((∃ e, glbStructuralChunk buf = .error e) ↔
      (buf.length < 20 ∨ readUInt32LE buf 0 ≠ GLB_MAGIC ∨
        readUInt32LE buf 16 ≠ JSON_CHUNK_TYPE ∨
        20 + readUInt32LE buf 12 > buf.length)) ∧
    (∀ (jsonParse : List Nat → Option (List GlbNode)) (nodes : List GlbNode),
      ¬(buf.length < 20 ∨ readUInt32LE buf 0 ≠ GLB_MAGIC ∨
        readUInt32LE buf 16 ≠ JSON_CHUNK_TYPE ∨
        20 + readUInt32LE buf 12 > buf.length) →
      jsonParse (stripTrailingNulls ((buf.drop 20).take (readUInt32LE buf 12))) =
        some nodes →
      parseGlbAnnotationsWith jsonParse buf = .ok (extractAnnotations nodes)) := by
  constructor
  · constructor
    · intro ⟨e, he⟩
      by_contra hc
      push_neg at hc
      obtain ⟨h1, h2, h3, h4⟩ := hc
      unfold glbStructuralChunk at he
      rw [if_neg (by omega), if_neg (by simpa using h2), if_neg (by simpa using h3),
        if_neg (by omega)] at he
      cases he
    · intro hc
      unfold glbStructuralChunk
      by_cases h1 : buf.length < 20
      · exact ⟨_, by rw [if_pos h1]⟩
      · rw [if_neg h1]
        by_cases h2 : readUInt32LE buf 0 = GLB_MAGIC
        · by_cases h3 : readUInt32LE buf 16 = JSON_CHUNK_TYPE
          · rcases hc with hc | hc | hc | hc
            · exact absurd hc h1
            · exact absurd h2 hc
            · exact absurd h3 hc
            · rw [if_neg (by simpa using h2), if_neg (by simpa using h3), if_pos hc]
              exact ⟨_, rfl⟩
          · rw [if_neg (by simpa using h2), if_pos (by simpa using h3)]
            exact ⟨_, rfl⟩
        · rw [if_pos (by simpa using h2)]
          exact ⟨_, rfl⟩
  · intro jsonParse nodes hok hparse
    push_neg at hok
    obtain ⟨h1, h2, h3, h4⟩ := hok
    unfold parseGlbAnnotationsWith glbStructuralChunk
    rw [if_neg (by omega), if_neg (by simpa using h2), if_neg (by simpa using h3),
      if_neg (by omega)]
    dsimp only
    rw [hparse]

/-- A well-formed minimal container: correct magic, version 2, one
4-byte JSON chunk of spaces. -/
def glbBufOK : List Nat :=
  u32le GLB_MAGIC ++ u32le 2 ++ u32le 24 ++ u32le 4 ++ u32le JSON_CHUNK_TYPE ++
    [32, 32, 32, 32]

/-- Witness for C4: the empty buffer is rejected, and the well-formed
buffer (with a parse oracle yielding no nodes) produces an annotation
list without throwing. -/
theorem parseGlbAnnotations_malformed_witness :
    (∃ e, glbStructuralChunk [] = .error e) ∧
      parseGlbAnnotationsWith (fun _ => some []) glbBufOK = .ok [] :=
  ⟨(parseGlbAnnotations_malformed []).1.mpr (Or.inl (by decide)),
   (parseGlbAnnotations_malformed glbBufOK).2 (fun _ => some []) [] (by decide) rfl⟩

/-- The C8 scenario node. -/
def steelBeamNode : GlbNode :=
  { name := some "Steel Beam [424461]", translation := none, matrix := none,
    extras := none }

/-- C8: a node named `"Steel Beam [424461]"` with no embedded custom
data yields an annotation labelled with the node name whose metadata
is exactly the bracketed identifier and the trimmed text before the
bracket. -/
theorem steel_beam_annotation :
    extractAnnotations [steelBeamNode] =
      [{ id := "ann_0", label := "Steel Beam [424461]", px := 0, py := 0, pz := 0,
         metadata := [("revit_element_id", "424461"),
                      ("family_type", "Steel Beam")] }] := by decide

/-! ## Exchange-format argument tokenizer (ifc-parser.ts, parseArgs)

The scanner state is the loop state of the source: parenthesis depth
(an integer; unbalanced input can drive it negative), the
inside-quoted-string flag, the current argument text, and the emitted
arguments.  The doubled-quote escape consumes two characters, so the
scanner recurses on the remaining character list. -/

/-- The single-quote character (0x27). -/
def squote : Char := Char.ofNat 39

structure ArgState where
  depth : Int
  inStr : Bool
  cur : List Char
  args : List String
deriving DecidableEq, Repr

def initArgState : ArgState := { depth := 0, inStr := false, cur := [], args := [] }

/-- The effect of one character that is consumed alone (every branch
of the source loop except the doubled-quote escape, which consumes two
characters and is handled in `runArgs`). -/
def argCharStep (c : Char) (st : ArgState) : ArgState :=
  if c = squote ∧ ¬ st.inStr = true then { st with inStr := true, cur := st.cur ++ [c] }
  else if c = squote ∧ st.inStr = true then
    { st with inStr := false, cur := st.cur ++ [c] }
  else if st.inStr = true then { st with cur := st.cur ++ [c] }
  else if c = '(' then { st with depth := st.depth + 1, cur := st.cur ++ [c] }
  else if c = ')' then { st with depth := st.depth - 1, cur := st.cur ++ [c] }
  else if c = ',' ∧ st.depth = 0 then
    { st with args := st.args ++ [jsTrim (String.mk st.cur)], cur := [] }
  else { st with cur := st.cur ++ [c] }

/-- The character loop of `parseArgs`: a quote inside a string
followed by another quote is the doubled-quote escape (two characters
consumed, two quote characters appended); every other character takes
a single `argCharStep`. -/
def runArgs : List Char → ArgState → ArgState
  | [], st => st
  | [c], st => argCharStep c st
  | c :: c2 :: rest2, st =>
    if c = squote ∧ st.inStr = true ∧ c2 = squote then
      runArgs rest2 { st with cur := st.cur ++ [squote, squote] }
    else runArgs (c2 :: rest2) (argCharStep c st)

/-- Function `parseArgs`: run the scanner, then push the final argument when
its trimmed text is non-empty. -/
def parseArgs (raw : String) : List String :=
  let st := runArgs raw.data initArgState
  if jsTrim (String.mk st.cur) ≠ "" then st.args ++ [jsTrim (String.mk st.cur)]
  else st.args

theorem string_mk_eq_empty_iff (l : List Char) : String.mk l = "" ↔ l = [] := by
  constructor
  · intro h
    have h2 := congrArg String.data h
    simpa using h2
  · intro h
    rw [h]

theorem forall_dropWhile_iff (p : Char → Bool) (l : List Char) :
    (∀ x ∈ l.dropWhile p, p x = true) ↔ (∀ x ∈ l, p x = true) := by
  induction l with
  | nil => simp
  | cons c l ih =>
    by_cases hc : p c = true
    · rw [List.dropWhile_cons_of_pos hc]
      rw [ih]
      constructor
      · intro h x hx
        rcases List.mem_cons.mp hx with rfl | hx
        · exact hc
        · exact h x hx
      · intro h x hx
        exact h x (List.mem_cons_of_mem _ hx)
    · rw [List.dropWhile_cons_of_neg hc]

/-- The trimmed text is empty exactly when every character is JS
whitespace. -/
theorem jsTrim_mk_empty_iff (l : List Char) :
    jsTrim (String.mk l) = "" ↔ l.all isJsSpace = true := by
  unfold jsTrim
  rw [string_mk_eq_empty_iff]
  have hdata : (String.mk l).data = l := rfl
  rw [hdata]
  rw [List.reverse_eq_nil_iff, List.dropWhile_eq_nil_iff]
  constructor
  · intro h
    rw [List.all_eq_true]
    intro x hx
    have h2 : ∀ x ∈ l.dropWhile isJsSpace, isJsSpace x = true := by
      intro y hy
      exact h y (List.mem_reverse.mpr hy)
    exact (forall_dropWhile_iff isJsSpace l).mp h2 x hx
  · intro h x hx
    rw [List.all_eq_true] at h
    exact h x (List.Sublist.mem (List.mem_reverse.mp hx) (List.dropWhile_sublist _))

theorem jsTrim_append_empty_iff (l : List Char) (c : Char) :
    (jsTrim (String.mk (l ++ [c])) = "" ↔
      (jsTrim (String.mk l) = "" ∧ isJsSpace c = true)) := by
  rw [jsTrim_mk_empty_iff, jsTrim_mk_empty_iff, List.all_append]
  simp

/-- One-character step of `runArgs` whenever the doubled-quote escape
does not fire. -/
theorem runArgs_cons_step (c : Char) (rest : List Char) (st : ArgState)
    (h : ¬(c = squote ∧ st.inStr = true ∧ rest.head? = some squote)) :
    runArgs (c :: rest) st = runArgs rest (argCharStep c st) := by
  cases rest with
  | nil => rfl
  | cons c2 r2 =>
    show (if c = squote ∧ st.inStr = true ∧ c2 = squote then _ else _) = _
    rw [if_neg]
    intro hc
    exact h ⟨hc.1, hc.2.1, by rw [hc.2.2]; rfl⟩

/-- The scanner distributes over append as long as the second part
does not begin with a quote (the doubled-quote lookahead never crosses
such a boundary). -/
theorem runArgs_append (ys : List Char) (hys : ys.head? ≠ some squote) :
    ∀ (n : Nat) (xs : List Char), xs.length ≤ n → ∀ st : ArgState,
      runArgs (xs ++ ys) st = runArgs ys (runArgs xs st) := by
  intro n
  induction n with
  | zero =>
    intro xs hl st
    have hxs : xs = [] := List.length_eq_zero.mp (Nat.le_zero.mp hl)
    subst hxs
    rfl
  | succ n ih =>
    intro xs hl st
    match xs with
    | [] => rfl
    | [c] =>
      show runArgs (c :: ys) st = runArgs ys (argCharStep c st)
      refine runArgs_cons_step c ys st ?_
      intro hc
      exact hys hc.2.2
    | c :: c2 :: rest2 =>
      by_cases hdq : c = squote ∧ st.inStr = true ∧ c2 = squote
      · have hL : runArgs ((c :: c2 :: rest2) ++ ys) st =
            runArgs (rest2 ++ ys) { st with cur := st.cur ++ [squote, squote] } := by
          show (if c = squote ∧ st.inStr = true ∧ c2 = squote then _ else _) = _
          rw [if_pos hdq]
          rfl
        have hR : runArgs (c :: c2 :: rest2) st =
            runArgs rest2 { st with cur := st.cur ++ [squote, squote] } := by
          show (if c = squote ∧ st.inStr = true ∧ c2 = squote then _ else _) = _
          rw [if_pos hdq]
        rw [hL, hR]
        refine ih rest2 ?_ _
        simp only [List.length_cons] at hl
        omega
      · have hL : runArgs ((c :: c2 :: rest2) ++ ys) st =
            runArgs ((c2 :: rest2) ++ ys) (argCharStep c st) := by
          show (if c = squote ∧ st.inStr = true ∧ c2 = squote then _ else _) = _
          rw [if_neg hdq]
          rfl
        have hR : runArgs (c :: c2 :: rest2) st =
            runArgs (c2 :: rest2) (argCharStep c st) := by
          show (if c = squote ∧ st.inStr = true ∧ c2 = squote then _ else _) = _
          rw [if_neg hdq]
        rw [hL, hR]
        refine ih (c2 :: rest2) ?_ _
        simp only [List.length_cons] at hl ⊢
        omega

/-- Scanning characters that are not parentheses or quotes, outside a
string and at nonzero depth, only accumulates text: no argument is
emitted and the depth is unchanged. -/
theorem runArgs_plain :
    ∀ (inn : List Char) (st : ArgState),
      (∀ c ∈ inn, c ≠ '(' ∧ c ≠ ')' ∧ c ≠ squote) →
      st.inStr = false → st.depth ≠ 0 →
      runArgs inn st =
        { depth := st.depth, inStr := false, cur := st.cur ++ inn,
          args := st.args } := by
  intro inn
  induction inn with
  | nil =>
    intro st _ hs _
    show st = _
    cases st
    simp_all
  | cons c rest ih =>
    intro st hc hs hd
    obtain ⟨hc1, hc2, hc3⟩ := hc c (List.mem_cons_self _ _)
    rw [runArgs_cons_step c rest st (by
      intro h
      rw [h.2.1] at hs
      cases hs)]
    have hstep : argCharStep c st =
        { depth := st.depth, inStr := false, cur := st.cur ++ [c],
          args := st.args } := by
      unfold argCharStep
      rw [if_neg (by intro h; exact hc3 h.1), if_neg (by intro h; exact hc3 h.1),
        if_neg (by rw [hs]; intro h; cases h), if_neg hc1, if_neg hc2,
        if_neg (by intro h; exact hd h.2)]
      cases st
      simp_all
    rw [hstep]
    rw [ih { depth := st.depth, inStr := false, cur := st.cur ++ [c], args := st.args }
      (fun x hx => hc x (List.mem_cons_of_mem _ hx)) rfl hd]
    simp

def countView (st : ArgState) : Int × Bool × Nat × Bool :=
  (st.depth, st.inStr, st.args.length, decide (jsTrim (String.mk st.cur) = ""))

theorem countView_argCharStep (c : Char) {s t : ArgState}
    (h : countView s = countView t) :
    countView (argCharStep c s) = countView (argCharStep c t) := by
  unfold countView at h
  obtain ⟨hd, hs, ha, hcur⟩ : s.depth = t.depth ∧ s.inStr = t.inStr ∧
      s.args.length = t.args.length ∧
      (decide (jsTrim (String.mk s.cur) = "") : Bool) =
        decide (jsTrim (String.mk t.cur) = "") := by
    injection h with h1 h'
    injection h' with h2 h''
    injection h'' with h3 h4
    exact ⟨h1, h2, h3, h4⟩
  have hcur' : (jsTrim (String.mk s.cur) = "") ↔ (jsTrim (String.mk t.cur) = "") := by
    constructor
    · intro hx
      have := hcur
      rw [decide_eq_true hx] at this
      exact of_decide_eq_true this.symm
    · intro hx
      have := hcur
      rw [decide_eq_true hx] at this
      exact of_decide_eq_true this
  have happ : ∀ x : Char,
      (decide (jsTrim (String.mk (s.cur ++ [x])) = "") : Bool) =
        decide (jsTrim (String.mk (t.cur ++ [x])) = "") := by
    intro x
    have h1 := jsTrim_append_empty_iff s.cur x
    have h2 := jsTrim_append_empty_iff t.cur x
    by_cases hx : jsTrim (String.mk (s.cur ++ [x])) = ""
    · rw [decide_eq_true hx]
      have := h1.mp hx
      have h2x : jsTrim (String.mk (t.cur ++ [x])) = "" :=
        h2.mpr ⟨hcur'.mp this.1, this.2⟩
      rw [decide_eq_true h2x]
    · rw [decide_eq_false hx]
      have h2x : ¬ jsTrim (String.mk (t.cur ++ [x])) = "" := by
        intro hcontra
        have := h2.mp hcontra
        exact hx (h1.mpr ⟨hcur'.mpr this.1, this.2⟩)
      rw [decide_eq_false h2x]
  unfold argCharStep countView
  rw [hs, hd]
  by_cases h1 : c = squote ∧ ¬ t.inStr = true
  · rw [if_pos h1, if_pos h1]
    simp [ha, happ c]
  · rw [if_neg h1, if_neg h1]
    by_cases h2 : c = squote ∧ t.inStr = true
    · rw [if_pos h2, if_pos h2]
      simp [ha, happ c]
    · rw [if_neg h2, if_neg h2]
      by_cases h3 : t.inStr = true
      · rw [if_pos h3, if_pos h3]
        simp [ha, happ c]
      · rw [if_neg h3, if_neg h3]
        by_cases h4 : c = '('
        · rw [if_pos h4, if_pos h4]
          simp [ha, happ c]
        · rw [if_neg h4, if_neg h4]
          by_cases h5 : c = ')'
          · rw [if_pos h5, if_pos h5]
            simp [ha, happ c]
          · rw [if_neg h5, if_neg h5]
            by_cases h6 : c = ',' ∧ t.depth = 0
            · rw [if_pos h6, if_pos h6]
              simp [ha]
            · rw [if_neg h6, if_neg h6]
              simp [ha, happ c]

/-- States agreeing on depth, string flag, argument count and
emptiness of the trimmed current text keep agreeing under the scanner,
with equal argument counts throughout. -/
theorem runArgs_countView :
    ∀ (n : Nat) (post : List Char), post.length ≤ n → ∀ s t : ArgState,
      countView s = countView t →
      countView (runArgs post s) = countView (runArgs post t) := by
  intro n
  induction n with
  | zero =>
    intro post hl s t h
    have hp : post = [] := List.length_eq_zero.mp (Nat.le_zero.mp hl)
    subst hp
    exact h
  | succ n ih =>
    intro post hl s t h
    have hflag : s.inStr = t.inStr := congrArg (fun v => v.2.1) h
    match post with
    | [] => exact h
    | [c] =>
      show countView (argCharStep c s) = countView (argCharStep c t)
      exact countView_argCharStep c h
    | c :: c2 :: rest2 =>
      by_cases hdq : c = squote ∧ s.inStr = true ∧ c2 = squote
      · have hdqt : c = squote ∧ t.inStr = true ∧ c2 = squote := by
          exact ⟨hdq.1, by rw [← hflag]; exact hdq.2.1, hdq.2.2⟩
        have hL : runArgs (c :: c2 :: rest2) s =
            runArgs rest2 { s with cur := s.cur ++ [squote, squote] } := by
          show (if c = squote ∧ s.inStr = true ∧ c2 = squote then _ else _) = _
          rw [if_pos hdq]
        have hR : runArgs (c :: c2 :: rest2) t =
            runArgs rest2 { t with cur := t.cur ++ [squote, squote] } := by
          show (if c = squote ∧ t.inStr = true ∧ c2 = squote then _ else _) = _
          rw [if_pos hdqt]
        rw [hL, hR]
        refine ih rest2 (by simp only [List.length_cons] at hl; omega) _ _ ?_
        unfold countView at h ⊢
        injection h with h1 h'
        injection h' with h2 h''
        injection h'' with h3 h4
        simp only [h1, h2, h3]
        have hq2 : ∀ u : List Char,
            u ++ [squote, squote] = (u ++ [squote]) ++ [squote] := by
          intro u
          simp
        rw [hq2, hq2]
        have e1 := jsTrim_append_empty_iff (s.cur ++ [squote]) squote
        have e2 := jsTrim_append_empty_iff (t.cur ++ [squote]) squote
        have e3 := jsTrim_append_empty_iff s.cur squote
        have e4 := jsTrim_append_empty_iff t.cur squote
        have hcur' : (jsTrim (String.mk s.cur) = "") ↔
            (jsTrim (String.mk t.cur) = "") := by
          constructor
          · intro hx
            have h4' := h4
            rw [decide_eq_true hx] at h4'
            exact of_decide_eq_true h4'.symm
          · intro hx
            have h4' := h4
            rw [decide_eq_true hx] at h4'
            exact of_decide_eq_true h4'
        simp only [Prod.mk.injEq, true_and]
        by_cases hx : jsTrim (String.mk ((s.cur ++ [squote]) ++ [squote])) = ""
        · rw [decide_eq_true hx]
          have hy := e1.mp hx
          have hz := e3.mp hy.1
          have : jsTrim (String.mk ((t.cur ++ [squote]) ++ [squote])) = "" :=
            e2.mpr ⟨e4.mpr ⟨hcur'.mp hz.1, hz.2⟩, hy.2⟩
          rw [decide_eq_true this]
        · rw [decide_eq_false hx]
          have : ¬ jsTrim (String.mk ((t.cur ++ [squote]) ++ [squote])) = "" := by
            intro hcontra
            have hy := e2.mp hcontra
            have hz := e4.mp hy.1
            exact hx (e1.mpr ⟨e3.mpr ⟨hcur'.mpr hz.1, hz.2⟩, hy.2⟩)
          rw [decide_eq_false this]
      · have hdqt : ¬(c = squote ∧ t.inStr = true ∧ c2 = squote) := by
          intro hcontra
          exact hdq ⟨hcontra.1, by rw [hflag]; exact hcontra.2.1, hcontra.2.2⟩
        have hL : runArgs (c :: c2 :: rest2) s =
            runArgs (c2 :: rest2) (argCharStep c s) := by
          show (if c = squote ∧ s.inStr = true ∧ c2 = squote then _ else _) = _
          rw [if_neg hdq]
        have hR : runArgs (c :: c2 :: rest2) t =
            runArgs (c2 :: rest2) (argCharStep c t) := by
          show (if c = squote ∧ t.inStr = true ∧ c2 = squote then _ else _) = _
          rw [if_neg hdqt]
        rw [hL, hR]
        refine ih (c2 :: rest2) (by simp only [List.length_cons] at hl ⊢; omega) _ _ ?_
        exact countView_argCharStep c h

theorem parseArgs_length_eq_of_countView {u v : List Char}
    (h : countView (runArgs u initArgState) = countView (runArgs v initArgState)) :
    (parseArgs (String.mk u)).length = (parseArgs (String.mk v)).length := by
  have ha : (runArgs u initArgState).args.length =
      (runArgs v initArgState).args.length := congrArg (fun x => x.2.2.1) h
  have hf : (decide (jsTrim (String.mk (runArgs u initArgState).cur) = "") : Bool) =
      decide (jsTrim (String.mk (runArgs v initArgState).cur) = "") :=
    congrArg (fun x => x.2.2.2) h
  unfold parseArgs
  dsimp only
  by_cases hcu : jsTrim (String.mk (runArgs u initArgState).cur) = ""
  · have hcv : jsTrim (String.mk (runArgs v initArgState).cur) = "" := by
      rw [decide_eq_true hcu] at hf
      exact of_decide_eq_true hf.symm
    rw [if_neg (by simpa using hcu), if_neg (by simpa using hcv)]
    exact ha
  · have hcv : ¬ jsTrim (String.mk (runArgs v initArgState).cur) = "" := by
      rw [decide_eq_false hcu] at hf
      intro hcontra
      rw [decide_eq_true hcontra] at hf
      cases hf
    rw [if_pos hcu, if_pos hcv]
    simp [ha]

/-- C6: the tokenizer returns the same number of top-level arguments
whatever the interior of a nested parenthesized group contains (in
particular, with or without commas): provided the scanner reaches the
group outside a quoted string and at non-negative depth, commas inside
the group sit at depth greater than zero and never split a top-level
argument, so the argument count does not depend on the group's
interior. -/
theorem parseArgs_nested_commas (pre inn1 inn2 post : List Char)
    (hs : (runArgs pre initArgState).inStr = false)
    (hd : 0 ≤ (runArgs pre initArgState).depth)
    (h1 : ∀ c ∈ inn1, c ≠ '(' ∧ c ≠ ')' ∧ c ≠ squote)
    (h2 : ∀ c ∈ inn2, c ≠ '(' ∧ c ≠ ')' ∧ c ≠ squote) :
    (parseArgs (String.mk (pre ++ '(' :: (inn1 ++ ')' :: post)))).length =
      (parseArgs (String.mk (pre ++ '(' :: (inn2 ++ ')' :: post)))).length := by
  have run_eq : ∀ inn : List Char, (∀ c ∈ inn, c ≠ '(' ∧ c ≠ ')' ∧ c ≠ squote) →
      runArgs (pre ++ '(' :: (inn ++ ')' :: post)) initArgState =
        runArgs post
          { depth := (runArgs pre initArgState).depth + 1 - 1, inStr := false,
            cur := (((runArgs pre initArgState).cur ++ ['(']) ++ inn) ++ [')'],
            args := (runArgs pre initArgState).args } := by
    intro inn hinn
    have a1 : runArgs (pre ++ '(' :: (inn ++ ')' :: post)) initArgState =
        runArgs ('(' :: (inn ++ ')' :: post)) (runArgs pre initArgState) :=
      runArgs_append _ (by intro hx; injection hx with hx; exact absurd hx (by decide))
        pre.length pre (Nat.le_refl _) initArgState
    have a2 : runArgs ('(' :: (inn ++ ')' :: post)) (runArgs pre initArgState) =
        runArgs (inn ++ ')' :: post) (argCharStep '(' (runArgs pre initArgState)) :=
      runArgs_cons_step _ _ _ (by intro hx; exact absurd hx.1 (by decide))
    have a3 : argCharStep '(' (runArgs pre initArgState) =
        { depth := (runArgs pre initArgState).depth + 1,
          inStr := (runArgs pre initArgState).inStr,
          cur := (runArgs pre initArgState).cur ++ ['('],
          args := (runArgs pre initArgState).args } := by
      unfold argCharStep
      rw [if_neg (by intro hx; exact absurd hx.1 (by decide)),
        if_neg (by intro hx; exact absurd hx.1 (by decide)),
        if_neg (by rw [hs]; intro hx; cases hx), if_pos rfl]
    have a4 : runArgs (inn ++ ')' :: post)
          { depth := (runArgs pre initArgState).depth + 1,
            inStr := (runArgs pre initArgState).inStr,
            cur := (runArgs pre initArgState).cur ++ ['('],
            args := (runArgs pre initArgState).args } =
        runArgs (')' :: post)
          (runArgs inn
            { depth := (runArgs pre initArgState).depth + 1,
              inStr := (runArgs pre initArgState).inStr,
              cur := (runArgs pre initArgState).cur ++ ['('],
              args := (runArgs pre initArgState).args }) :=
      runArgs_append _ (by intro hx; injection hx with hx; exact absurd hx (by decide))
        inn.length inn (Nat.le_refl _) _
    have a5 : runArgs inn
          { depth := (runArgs pre initArgState).depth + 1,
            inStr := (runArgs pre initArgState).inStr,
            cur := (runArgs pre initArgState).cur ++ ['('],
            args := (runArgs pre initArgState).args } =
        { depth := (runArgs pre initArgState).depth + 1, inStr := false,
          cur := ((runArgs pre initArgState).cur ++ ['(']) ++ inn,
          args := (runArgs pre initArgState).args } := by
      rw [runArgs_plain inn
        { depth := (runArgs pre initArgState).depth + 1,
          inStr := (runArgs pre initArgState).inStr,
          cur := (runArgs pre initArgState).cur ++ ['('],
          args := (runArgs pre initArgState).args }
        hinn hs
        (by show (runArgs pre initArgState).depth + 1 ≠ 0; omega)]
    have a6 : runArgs (')' :: post)
          { depth := (runArgs pre initArgState).depth + 1, inStr := false,
            cur := ((runArgs pre initArgState).cur ++ ['(']) ++ inn,
            args := (runArgs pre initArgState).args } =
        runArgs post
          { depth := (runArgs pre initArgState).depth + 1 - 1, inStr := false,
            cur := (((runArgs pre initArgState).cur ++ ['(']) ++ inn) ++ [')'],
            args := (runArgs pre initArgState).args } := by
      rw [runArgs_cons_step _ _ _ (by intro hx; exact absurd hx.1 (by decide))]
      refine congrArg (runArgs post) ?_
      unfold argCharStep
      rw [if_neg (by intro hx; exact absurd hx.1 (by decide)),
        if_neg (by intro hx; exact absurd hx.1 (by decide)),
        if_neg (by intro hx; cases hx), if_neg (by intro hx; exact absurd hx (by decide)),
        if_pos rfl]
    rw [a1, a2, a3, a4, a5, a6]
  have hflagone : ∀ u : List Char,
      (decide (jsTrim (String.mk (u ++ [')'])) = "") : Bool) = false := by
    intro u
    rw [decide_eq_false]
    intro hx
    have hall := (jsTrim_mk_empty_iff _).mp hx
    rw [List.all_append] at hall
    simp [isJsSpace] at hall
  have key := runArgs_countView post.length post (Nat.le_refl _)
    { depth := (runArgs pre initArgState).depth + 1 - 1, inStr := false,
      cur := (((runArgs pre initArgState).cur ++ ['(']) ++ inn1) ++ [')'],
      args := (runArgs pre initArgState).args }
    { depth := (runArgs pre initArgState).depth + 1 - 1, inStr := false,
      cur := (((runArgs pre initArgState).cur ++ ['(']) ++ inn2) ++ [')'],
      args := (runArgs pre initArgState).args }
    (by
      unfold countView
      simp only [Prod.mk.injEq, true_and, and_true]
      rw [hflagone, hflagone])
  refine parseArgs_length_eq_of_countView ?_
  rw [run_eq inn1 h1, run_eq inn2 h2]
  exact key

/-- Witness for C6: the argument strings `a(1,2),b` and `a(12),b`
tokenize to the same number of top-level arguments. -/
theorem parseArgs_nested_commas_witness :
    (parseArgs (String.mk ("a".data ++ '(' :: ("1,2".data ++ ')' :: ",b".data)))).length =
      (parseArgs (String.mk ("a".data ++ '(' :: ("12".data ++ ')' :: ",b".data)))).length :=
  parseArgs_nested_commas "a".data "1,2".data "12".data ",b".data
    (by decide) (by decide) (by decide) (by decide)

/-! ## Exchange-format entity scan and property indexing
(ifc-parser.ts, parseIfcBuffer)

The two global regular expressions of the source are implemented as
explicit scanners with the same match semantics:
`/#(\d+)\s*=\s*([A-Z0-9]+)\s*\(([^;]*)\)\s*;/g` (leftmost,
non-overlapping, greedy; the `[^;]*` capture backtracks to the last
`)` that is followed by only whitespace before the first `;`), and
`/#(\d+)/g` (digit runs cannot contain `#`, so restarting the scan one
character after each `#` is equivalent to resuming after the match). -/

def isUpperOrDigit (c : Char) : Bool :=
  (65 ≤ c.toNat && c.toNat ≤ 90) || (48 ≤ c.toNat && c.toNat ≤ 57)

/-- Value of `parseInt` on a decimal digit run. -/
def natOfDigits (ds : List Char) : Nat :=
  ds.foldl (fun n c => n * 10 + (c.toNat - 48)) 0

/-- All `#<digits>` references of a string (`/#(\d+)/g`), in order. -/
def scanRefs : List Char → List Nat
  | [] => []
  | c :: rest =>
    if c = '#' then
      let ds := rest.takeWhile Char.isDigit
      if ds = [] then scanRefs rest else natOfDigits ds :: scanRefs rest
    else scanRefs rest

/-- One attempted entity match starting at the head of the input:
`#<digits> \s* = \s* <TYPE> \s* ( <args> ) \s* ;` with the argument
capture ending at the last `)` followed by only whitespace before the
first `;`.  Returns id, type, raw argument text and the remaining
input after the `;`. -/
def tryMatchEntity (cs : List Char) : Option (Nat × String × String × List Char) :=
  match cs with
  | '#' :: r1 =>
    let ds := r1.takeWhile Char.isDigit
    if ds = [] then none else
    match (r1.drop ds.length).dropWhile isJsSpace with
    | '=' :: r3 =>
      let r4 := r3.dropWhile isJsSpace
      let ty := r4.takeWhile isUpperOrDigit
      if ty = [] then none else
      match (r4.drop ty.length).dropWhile isJsSpace with
      | '(' :: r6 =>
        let seg := r6.takeWhile (fun c => !(c == ';'))
        match r6.drop seg.length with
        | ';' :: r7 =>
          let segR := seg.reverse
          match segR.drop (segR.takeWhile isJsSpace).length with
          | ')' :: bodyR =>
            some (natOfDigits ds, String.mk ty, String.mk bodyR.reverse, r7)
          | _ => none
        | _ => none
      | _ => none
    | _ => none
  | _ => none

/-- The repeated `lineRe.exec` loop: try a match at every position,
resuming after each successful match.  The fuel is the input length;
every iteration consumes at least one character, so it never runs
out. -/
def scanEntitiesFuel : Nat → List Char → List (Nat × String × String)
  | 0, _ => []
  | fuel + 1, cs =>
    match cs with
    | [] => []
    | c :: rest =>
      match tryMatchEntity (c :: rest) with
      | some t => (t.1, t.2.1, t.2.2.1) :: scanEntitiesFuel fuel t.2.2.2
      | none => scanEntitiesFuel fuel rest

def scanEntities (cs : List Char) : List (Nat × String × String) :=
  scanEntitiesFuel cs.length cs

structure IfcEntity where
  type : String
  args : List String
deriving DecidableEq, Repr

structure IfcElement where
  guid : String
  name : String
  properties : List (String × String)
deriving DecidableEq, Repr

/-- Table `ELEMENT_TYPES`. -/
def ELEMENT_TYPES : List String :=
  ["IFCBEAM", "IFCWALL", "IFCWALLSTANDARDCASE", "IFCMEMBER", "IFCPLATE",
   "IFCCOLUMN", "IFCSLAB", "IFCBUILDINGELEMENTPROXY", "IFCDOOR", "IFCWINDOW",
   "IFCROOF", "IFCFOOTING", "IFCCOVERING", "IFCRAILING"]

/-- Insertion-ordered map update (JS `Map.set` over numeric keys). -/
def natMapSet {α : Type} (m : List (Nat × α)) (k : Nat) (v : α) : List (Nat × α) :=
  match m with
  | [] => [(k, v)]
  | (k₀, v₀) :: rest => if k₀ = k then (k₀, v) :: rest else (k₀, v₀) :: natMapSet rest k v

def natMapGet {α : Type} (m : List (Nat × α)) (k : Nat) : Option α :=
  match m with
  | [] => none
  | (k₀, v₀) :: rest => if k₀ = k then some v₀ else natMapGet rest k

/-- Quote characters doubled inside a quoted literal
(`.replace(/''/g, "'")`). -/
def unescapeQuotes : List Char → List Char
  | [] => []
  | [c] => [c]
  | c :: c2 :: rest2 =>
    if c = squote ∧ c2 = squote then squote :: unescapeQuotes rest2
    else c :: unescapeQuotes (c2 :: rest2)

/-- Function `strArg`: `null` for a missing argument, the empty string or `$`;
quoted literals lose their quotes and unescape `''`. -/
def strArg (arg : Option String) : Option String :=
  match arg with
  | none => none
  | some a =>
    if a = "" ∨ a = "$" then none
    else
      match a.data with
      | c :: rest =>
        if c = squote ∧ (c :: rest).getLast? = some squote then
          some (String.mk (unescapeQuotes (rest.dropLast)))
        else some a
      | [] => none

/-- Function `refId`: `#123` to 123 (`parseInt` of the text after `#`;
sign/base prefixes never occur in reference position). -/
def refId (arg : Option String) : Option Nat :=
  match arg with
  | none => none
  | some a =>
    if a = "" then none
    else
      match a.data with
      | '#' :: rest =>
        let ds := (rest.dropWhile isJsSpace).takeWhile Char.isDigit
        if ds = [] then none else some (natOfDigits ds)
      | _ => none

/-- Function `cleanValue`: boolean literals and the exporter's spurious
trailing decimal point (`/(\d+)\.$/`). -/
def cleanValue (v : String) : String :=
  if v = ".T." then "true"
  else if v = ".F." then "false"
  else
    match v.data.reverse with
    | '.' :: d :: _ => if Char.isDigit d then String.mk v.data.dropLast else v
    | _ => v

/-- Match `nomRaw.match(/^[A-Z0-9]+\((.+)\)$/)`: strip a wrapping type-tag
call; the capture is everything between the first `(` and a final `)`
(non-empty, and `.` does not match line terminators). -/
def matchTypeTag (s : String) : Option String :=
  let cs := s.data
  let p := cs.takeWhile isUpperOrDigit
  if p = [] then none
  else
    match cs.drop p.length with
    | '(' :: rest =>
      match rest.reverse with
      | ')' :: innerR =>
        if innerR = [] then none
        else if innerR.any (fun c =>
            c.toNat = 10 || c.toNat = 13 || c.toNat = 8232 || c.toNat = 8233) then none
        else some (String.mk innerR.reverse)
      | _ => none
    | _ => none

/-- Merge `Object.assign(target, props)`: later keys overwrite in place. -/
def assignProps (base props : List (String × String)) : List (String × String) :=
  props.foldl (fun b kv => jsMapSet b kv.1 kv.2) base

/-- The property map collected from one property set
(`IFCPROPERTYSINGLEVALUE` entities referenced by its fifth argument). -/
def collectPsetProps (entities : List (Nat × IfcEntity)) (propsRaw : String) :
    List (String × String) :=
  (scanRefs propsRaw.data).foldl
    (fun pr pid =>
      match natMapGet entities pid with
      | none => pr
      | some propEnt =>
        if propEnt.type ≠ "IFCPROPERTYSINGLEVALUE" then pr
        else
          let propName := strArg (propEnt.args.get? 0)
          let nomRaw := propEnt.args.getD 2 ""
          let propVal : Option String :=
            if nomRaw ≠ "" ∧ nomRaw ≠ "$" then
              match matchTypeTag nomRaw with
              | some inner => some ((strArg (some inner)).getD inner)
              | none => some nomRaw
            else none
          match propName, propVal with
          | some n, some v => jsMapSet pr n (cleanValue v)
          | _, _ => pr)
    []

/-- The `IFCRELDEFINESBYPROPERTIES` pass building
elementId-to-property-map. -/
def buildPropIndex (entities : List (Nat × IfcEntity)) :
    List (Nat × List (String × String)) :=
  entities.foldl
    (fun acc ent =>
      if ent.2.type ≠ "IFCRELDEFINESBYPROPERTIES" then acc
      else
        let relatedRaw := ent.2.args.getD 4 ""
        match refId (ent.2.args.get? 5) with
        | none => acc
        | some psetId =>
          match natMapGet entities psetId with
          | none => acc
          | some psetEnt =>
            if psetEnt.type ≠ "IFCPROPERTYSET" then acc
            else
              let props := collectPsetProps entities (psetEnt.args.getD 4 "")
              (scanRefs relatedRaw.data).foldl
                (fun a elId =>
                  natMapSet a elId (assignProps ((natMapGet a elId).getD []) props))
                acc)
    []

/-- The `IFCRELASSOCIATESMATERIAL` pass building
elementId-to-material-name. -/
def buildMatIndex (entities : List (Nat × IfcEntity)) : List (Nat × String) :=
  entities.foldl
    (fun acc ent =>
      if ent.2.type ≠ "IFCRELASSOCIATESMATERIAL" then acc
      else
        let relatedRaw := ent.2.args.getD 4 ""
        match refId (ent.2.args.get? 5) with
        | none => acc
        | some matRefId =>
          match natMapGet entities matRefId with
          | none => acc
          | some matEnt =>
            let matName : Option String :=
              if matEnt.type = "IFCMATERIAL" then strArg (matEnt.args.get? 0)
              else none
            match matName with
            | none => acc
            | some nm =>
              if nm = "" then acc
              else
                (scanRefs relatedRaw.data).foldl
                  (fun a elId => natMapSet a elId nm) acc)
    []

/-- Function `parseIfcBuffer` on the decoded text: scan entities into an
insertion-ordered map, collect building elements, build the property
and material indexes, and assemble the element records. -/
def parseIfcBuffer (text : String) : List IfcElement :=
  let entities := (scanEntities text.data).foldl
    (fun m t => natMapSet m t.1 { type := t.2.1, args := parseArgs t.2.2 }) []
  let elements := entities.filter fun kv => kv.2.type ∈ ELEMENT_TYPES
  let propIndex := buildPropIndex entities
  let matIndex := buildMatIndex entities
  elements.map fun kv =>
    let props := (natMapGet propIndex kv.1).getD []
    let props :=
      match natMapGet matIndex kv.1 with
      | some mat => jsMapSet props "Material" mat
      | none => props
    { guid := (strArg (kv.2.args.get? 0)).getD ""
      name := (strArg (kv.2.args.get? 2)).getD ""
      properties := props }

/-- The C7 scenario exchange file: element #5, a property set #10
whose property list references #12, a single-value property #12 with
nominal value `IFCREAL(4.)`, and a defines-by-properties relationship
#20 relating #5 to #10. -/
def c7Text : String :=
  "#5 = IFCBEAM('guid1',$,'Beam:T:424461',$,$);\n#10 = IFCPROPERTYSET('pg',$,'Pset',$,(#12));\n#12 = IFCPROPERTYSINGLEVALUE('Span','',IFCREAL(4.),$);\n#20 = IFCRELDEFINESBYPROPERTIES('rg',$,$,$,(#5),#10);\n"

/-- The entity table scanned from the scenario file. -/
def c7Entities : List (Nat × IfcEntity) :=
  (scanEntities c7Text.data).foldl
    (fun m t => natMapSet m t.1 { type := t.2.1, args := parseArgs t.2.2 }) []

set_option maxRecDepth 10000 in
/-- C7: the property indexer assigns element id 5 exactly the property
map `Span = 4` — the wrapping `IFCREAL(...)` type tag is stripped and
the trailing decimal point of `4.` removed — and the parsed element
record for #5 carries exactly that property map. -/
theorem parseIfcBuffer_span_scenario :
    natMapGet (buildPropIndex c7Entities) 5 = some [("Span", "4")] ∧
    parseIfcBuffer c7Text =
      [{ guid := "guid1", name := "Beam:T:424461",
         properties := [("Span", "4")] }] := by
  constructor
  · decide
  · decide

end AR
